import Mathlib

/-!
Shallow embedding of the SINK client's reconciliation, ordering, caching and
upload-state logic, translated from `src/app.js` (first driver),
`src/services/uploadService.js` (second driver) and
`src/services/firebaseService.js`.

Modelling conventions:
* JS objects used as string-keyed maps (`pendingMessages`, `failedUploads`,
  `processedMessageIds`) are association lists with object semantics
  (at most one binding per key, maintained by `insertA`/`eraseA`).
* Message records keep the fields the claims depend on
  (`id`, `tempId`, `type`, `status`, `text`, `sender`, `senderId`,
  `createdAt`, `image`, `video`, `file`); purely presentational fields
  (formatted `time` string, avatar URL markup) are omitted.
* `createdAt` values are epoch milliseconds; through
  `firebaseService.listenForMessages` they are always numbers, so the
  `new Date(...)` fallback branches of `formatMessage` collapse to the
  numeric case.
* Asynchronous flows are split at their `await` points into explicit
  start/finish functions so that interleavings (cancel between start and
  completion, a second send while one is in flight) are expressible.
* `Array.prototype.sort` with the comparator `timeA - timeB` is modelled by
  `List.insertionSort` on `createdAt`; no claim in scope depends on the
  relative order of equal timestamps.
* `String.prototype.trim` is modelled by a structural `jsTrim` over the
  character list (whitespace stripping at both ends).
-/

namespace SINK

/-- Association-list lookup with JS-object semantics (first binding wins). -/
def lookupA {β : Type} (l : List (String × β)) (k : String) : Option β :=
  match l with
  | [] => none
  | (k', v) :: rest => if k' == k then some v else lookupA rest k

/-- Association-list insert with JS-object semantics: overwrite if present. -/
def insertA {β : Type} (l : List (String × β)) (k : String) (v : β) :
    List (String × β) :=
  match l with
  | [] => [(k, v)]
  | (k', v') :: rest =>
      if k' == k then (k, v) :: rest else (k', v') :: insertA rest k v

/-- Association-list delete (`delete obj[k]`). -/
def eraseA {β : Type} (l : List (String × β)) (k : String) :
    List (String × β) :=
  l.filter (fun p => !(p.1 == k))

/-- Structural model of `String.prototype.trim` on the character list. -/
def trimChars (l : List Char) : List Char :=
  ((l.dropWhile Char.isWhitespace).reverse.dropWhile Char.isWhitespace).reverse

/-- JS `input.value.trim()`. -/
def jsTrim (s : String) : String := ⟨trimChars s.toList⟩

/-! ### Identifier generator (`genTempId`, identical in both drivers)

`genTempId` encodes `Date.now()` into eight base-64 symbols over the
Firebase push alphabet `PUSH_CHARS`, then appends twelve random symbols;
a call in the same millisecond as the previous one increments the previous
twelve-symbol suffix as a base-64 integer instead of redrawing it
(`src/app.js:1067-1104`, `src/services/uploadService.js:2050-2087`). -/

/-- Model of `PUSH_CHARS` from the source, as a character list. -/
def pushChars : List Char :=
  "-0123456789ABCDEFGHIJKLMNOPQRSTUVWXYZ_abcdefghijklmnopqrstuvwxyz".toList

/-- Model of `PUSH_CHARS.charAt n` (all uses stay in range `0..63`). -/
def pushChar (n : Nat) : Char := pushChars.getD n '?'

/-- The eight timestamp symbols: position `i` carries the base-64 digit of
weight `64^(7-i)` of `now`, exactly as the source loop writes
`timeStampChars[i] = PUSH_CHARS.charAt(now % 64); now = floor(now / 64)`
for `i = 7 .. 0`. -/
def timeStampChars (now : Nat) : List Char :=
  (List.range 8).map (fun i => pushChar (now / 64 ^ (7 - i) % 64))

/-- Generator state: `this._lastPushTime` and `this._lastRandChars`.
The source initialises them to `0` and twelve zeros. -/
structure GenState where
  lastPushTime : Nat
  lastRandChars : List Nat
  deriving Repr, DecidableEq

/-- Initial generator state (`_lastPushTime: 0`,
`_lastRandChars: new Array(12).fill(0)`). -/
def GenState.init : GenState := ⟨0, List.replicate 12 0⟩

/-- The same-millisecond carry, on the reversed suffix (rightmost symbol
first): zero every trailing `63`, then increment the first non-`63`.
When the whole suffix is `63`s the JS loop leaves `i = -1` and the stray
`this._lastRandChars[-1]++` creates a non-index property, so the twelve
array slots are left all zero — which is what the empty-list case returns. -/
def incRandRev : List Nat → List Nat
  | [] => []
  | c :: rest => if c == 63 then 0 :: incRandRev rest else (c + 1) :: rest

/-- The observable effect of the carry loop on `_lastRandChars`. -/
def incRand (l : List Nat) : List Nat := (incRandRev l.reverse).reverse

/-- The value of the loop variable `i` at the moment the source executes
`this._lastRandChars[i]++`: `11` minus the number of trailing `63`s. -/
def carryWriteIndex (l : List Nat) : Int :=
  11 - ((l.reverse.takeWhile (fun c => c == 63)).length : Int)

/-- Model of `genTempId`. `now` is `Date.now()`; `rand` supplies the twelve values
`Math.floor(Math.random() * 64)` drawn when the millisecond is fresh.
Returns the key and the updated generator state. -/
def genTempId (g : GenState) (now : Nat) (rand : List Nat) :
    String × GenState :=
  let duplicateTime := now == g.lastPushTime
  let suffix := if duplicateTime then incRand g.lastRandChars else rand
  let key : String := ⟨'-' :: (timeStampChars now ++ suffix.map pushChar)⟩
  (key, ⟨now, suffix⟩)

/-- Well-formed suffix data: twelve symbols, each below 64. -/
def WfSuffix (l : List Nat) : Prop := l.length = 12 ∧ ∀ c ∈ l, c < 64

instance : DecidablePred WfSuffix := fun l =>
  inferInstanceAs (Decidable (l.length = 12 ∧ ∀ c ∈ l, c < 64))

/-! ### Data model -/

/-- Attachment metadata (`message.file = { url, name, size, ... }`). -/
structure FileMeta where
  url : String
  name : String
  size : Nat
  deriving Repr, DecidableEq

/-- A message record as the drivers store it: placeholders
(`src/app.js:1811-1820`, `1899-1914`) and formatted remote messages
(`src/app.js:424-435`, `src/services/uploadService.js:1414-1425`) share
this shape.  JS keys that a particular producer does not emit are `none`. -/
structure Msg where
  id : String
  tempId : Option String
  type : String
  status : Option String
  sender : String
  senderId : Option String
  text : String
  createdAt : Nat
  image : Option String
  video : Option String
  file : Option FileMeta
  progress : Option Nat
  deriving Repr, DecidableEq

/-- A raw event as delivered by `firebaseService.listenForMessages`
(`src/services/firebaseService.js:472-487`).  The listener callbacks read
`rawMessage.tempId`, so the field is kept, but `listenForMessages` builds
its object without it, so through the real service it is always `none`. -/
structure RawMsg where
  id : String
  tempId : Option String
  senderId : String
  senderName : String
  text : String
  createdAt : Nat
  image : Option String
  video : Option String
  file : Option FileMeta
  deriving Repr, DecidableEq

/-- A selected attachment (`this.pendingAttachment = { file, name, size,
type }`); `mime` is the file's MIME `type`. -/
structure FileV where
  name : String
  mime : String
  size : Nat
  deriving Repr, DecidableEq

/-- A `failedUploads` entry: `{ threadType, threadId, caption, currentUser,
file }`, with the user kept as `uid`/`uname` and thread routing left
implicit (one thread in scope). -/
structure FailedUpload where
  caption : String
  file : FileV
  uid : String
  uname : String
  deriving Repr, DecidableEq

/-- Insertion order by `createdAt`: the comparator
`(a, b) => timeA - timeB` of the cache sort. -/
def cacheLE (a b : Msg) : Prop := a.createdAt ≤ b.createdAt

instance : DecidableRel cacheLE := fun a b =>
  inferInstanceAs (Decidable (a.createdAt ≤ b.createdAt))

instance : IsTotal Msg cacheLE := ⟨fun _ _ => Nat.le_total _ _⟩

instance : IsTrans Msg cacheLE := ⟨fun _ _ _ => Nat.le_trans⟩

/-- Model of `this.messagesCache[threadKey].sort((a, b) => timeA - timeB)`; JS sort
realised as an insertion sort (no claim depends on the order of equal
timestamps). -/
def sortCache (l : List Msg) : List Msg := List.insertionSort cacheLE l

/-- Structural `String.startsWith` on character lists (second argument is
the candidate prefix). -/
def startsWithCL : List Char → List Char → Bool
  | _, [] => true
  | [], _ :: _ => false
  | c :: cs, p :: ps => c == p && startsWithCL cs ps

/-- JS `s.startsWith(p)`. -/
def startsWithS (s p : String) : Bool := startsWithCL s.toList p.toList

/-- Structural substring test. -/
def containsCL : List Char → List Char → Bool
  | [], p => startsWithCL [] p
  | c :: cs, p => startsWithCL (c :: cs) p || containsCL cs p

/-- JS `s.includes(p)`. -/
def containsS (s p : String) : Bool := containsCL s.toList p.toList

/-- Model of `FILE_SIZE_LIMITS` dispatch of `validateFileSize`
(`src/services/uploadService.js:28-60`): images 10 MB, videos 100 MB,
PDF/word-processing documents 20 MB, anything else 25 MB. -/
def sizeLimitMB (mime : String) : Nat :=
  if startsWithS mime "image/" then 10
  else if startsWithS mime "video/" then 100
  else if mime == "application/pdf" || containsS mime "document" ||
      containsS mime "msword" || containsS mime "officedocument" then 20
  else 25

/-- Model of `validateFileSize` succeeds iff `size / 1024 / 1024 <= limit`
(`src/services/uploadService.js:40-70`); division by `2^20` is exact in
binary floating point for realistic byte counts, so the comparison is the
integer one `size <= limit * 1048576`. -/
def validateFileSizeOk (f : FileV) : Bool :=
  f.size ≤ sizeLimitMB f.mime * 1048576

/-- In-flight upload context captured across the `await uploadFile`
boundary of `uploadAndSendAttachment` (both drivers). -/
structure UploadCtx where
  tempId : String
  caption : String
  file : FileV
  uid : String
  uname : String
  deriving Repr, DecidableEq

/-- Model of `messageType` selection of the upload success branch
(`src/app.js:1947-1948`, `src/services/uploadService.js:3025-3026`). -/
def messageTypeOf (mime : String) : String :=
  if startsWithS mime "image/" then "image"
  else if startsWithS mime "video/" then "video" else "file"

/-- The final message object built on upload success
(`src/app.js:1950-1977`, `src/services/uploadService.js:3028-3056`). -/
def finalMessage (c : UploadCtx) (now2 : Nat) (url : String) : Msg :=
  let t := messageTypeOf c.file.mime
  { id := c.tempId, tempId := some c.tempId, type := t,
    status := some "sent", sender := c.uname, senderId := some c.uid,
    text := c.caption, createdAt := now2, progress := none,
    image := if t == "image" then some url else none,
    video := if t == "video" then some url else none,
    file := if t == "file" then some ⟨url, c.file.name, c.file.size⟩ else none }

/-- Model of `uploadFile` (`src/services/uploadService.js:114-191`) first runs
`validateFileSize` and only then performs the transfer, whose outcome
(`transfer`) is external. -/
def uploadOutcome (f : FileV) (transfer : Except String String) :
    Except String String :=
  if validateFileSizeOk f then transfer else Except.error "File too large"

/-- Update `pendingMessages[k].status` (step 6 of the text flows,
`src/app.js:1848-1854`, `src/services/uploadService.js:2911-2917`). -/
def setStatusA (l : List (String × Msg)) (k : String) (st : String) :
    List (String × Msg) :=
  l.map (fun p => if p.1 == k then (p.1, { p.2 with status := some st }) else p)

/-- Dedup-set insert (`Set.prototype.add`). -/
def insertS (l : List String) (x : String) : List String :=
  if l.contains x then l else l ++ [x]

/-! ### First driver: `src/app.js` -/

namespace AppJs

/-- Thread-session state of the first driver, for the single open thread:
`messagesCache[threadKey]`, `pendingMessages`, `sentMessageIds`, the
`data-temp-id` attributes of rendered placeholder bubbles, `failedUploads`,
`pendingAttachment`, the push-id generator state, the record of writes made
through `firebaseService.saveMessage`, and the declared-but-never-set
`isUploading` field (`src/app.js:99`). -/
structure St where
  cache : List Msg
  pending : List (String × Msg)
  sentIds : List String
  domTempIds : List String
  failedUploads : List (String × FailedUpload)
  pendingAttachment : Option FileV
  gen : GenState
  savedLog : List Msg
  isUploading : Bool
  deriving Repr, DecidableEq

/-- The empty session. -/
def St.init : St := ⟨[], [], [], [], [], none, GenState.init, [], false⟩

/-- Model of `formatMessage` (`src/app.js:403-436`).  `uid` is
`window.auth.currentUser.uid` (assumed signed in; the `null` early return
is out of scope).  The returned object has no `tempId`, `status`,
`senderId` or `progress` keys; `createdAt` is numeric through the service. -/
def formatMessage (uid : String) (raw : RawMsg) : Msg :=
  { id := raw.id
    tempId := none
    type := if raw.senderId == uid then "outgoing" else "incoming"
    status := none
    sender := if raw.senderName == "" then "Unknown" else raw.senderName
    senderId := none
    text := raw.text
    createdAt := raw.createdAt
    image := raw.image
    video := raw.video
    file := raw.file
    progress := none }

/-- The spread `{ ...pending, ...formattedMessage, status: 'delivered' }`
of the merge branch (`src/app.js:694`): every key the formatted message
emits overwrites the placeholder's, keys it does not emit (`tempId`,
`senderId`, `progress`) survive from the placeholder, and `status` is
forced to `delivered`. -/
def mergeRecord (pm f : Msg) : Msg :=
  { id := f.id
    tempId := pm.tempId
    type := f.type
    status := some "delivered"
    sender := f.sender
    senderId := pm.senderId
    text := f.text
    createdAt := f.createdAt
    image := f.image
    video := f.video
    file := f.file
    progress := pm.progress }

/-- Steps 3-5 of the listener (`src/app.js:741-789`): skip when the id is
already cached, skip on the legacy `sentMessageIds` check, otherwise push
and re-sort.  (`appendMessage`/`renderChat` render from the cache; DOM
bookkeeping of incoming bubbles is not tracked.) -/
def applyRest (s : St) (f : Msg) : St :=
  if s.cache.any (fun m => m.id == f.id) then s
  else if s.sentIds.contains f.id then s
  else { s with cache := sortCache (s.cache ++ [f]) }

/-- The `openRoom` listener callback (`src/app.js:668-790`).
`matchId = formattedMessage.tempId || formattedMessage.id`; branch 1
merges into a pending placeholder (insert of the merged record at
`src/app.js:694`, then `delete` at 713; the cache slot found by
`tempId === matchId || id === matchId` is replaced by the formatted
message, else the formatted message is pushed un-sorted); branch 2 is the
DOM-bubble backup check; branches 3-5 are `applyRest`. -/
def applyRoom (uid : String) (s : St) (raw : RawMsg) : St :=
  let f := formatMessage uid raw
  let matchId := f.tempId.getD f.id
  match lookupA s.pending matchId with
  | some pm =>
      let pending1 := insertA s.pending matchId (mergeRecord pm f)
      let cache1 :=
        match s.cache.findIdx? (fun m => m.tempId == some matchId || m.id == matchId) with
        | some i => s.cache.set i f
        | none => s.cache ++ [f]
      { s with pending := eraseA pending1 matchId, cache := cache1 }
  | none =>
      match f.tempId with
      | some t =>
          if s.domTempIds.contains t then
            let cache1 :=
              match s.cache.findIdx? (fun m => m.tempId == some t) with
              | some i => s.cache.set i f
              | none => s.cache ++ [f]
            { s with cache := cache1 }
          else applyRest s f
      | none => applyRest s f

/-- Model of `uploadAndSendAttachment` up to the `await uploadService.uploadFile`
call (`src/app.js:1876-1939`): no latch is consulted; a fresh `tempId` is
generated, the placeholder is registered in `pendingMessages` and rendered,
and the transfer starts.  With no attachment the function throws before
mutating state. -/
def uploadStart (s : St) (now : Nat) (rand : List Nat)
    (uid uname caption : String) : St × Option UploadCtx :=
  match s.pendingAttachment with
  | none => (s, none)
  | some att =>
      let r := genTempId s.gen now rand
      let ph : Msg :=
        { id := r.1, tempId := some r.1, type := "uploading",
          status := some "uploading", progress := some 0, sender := uname,
          senderId := some uid, text := caption, createdAt := now,
          image := none, video := none, file := none }
      ({ s with gen := r.2, pending := insertA s.pending r.1 ph,
                domTempIds := s.domTempIds ++ [r.1] },
        some ⟨r.1, caption, att, uid, uname⟩)

/-- Model of `uploadAndSendAttachment` after the awaited transfer resolves
(`src/app.js:1941-2018`).  Success: `saveMessage` persists the final
message and `pendingAttachment` is cleared (`updateMessageStatus` touches
only the DOM; `pendingMessages[tempId]` is left in place).  Failure: the
context is recorded in `failedUploads` and `pendingAttachment` cleared
(again without touching `pendingMessages`). -/
def uploadFinish (s : St) (c : UploadCtx) (now2 : Nat)
    (result : Except String String) : St :=
  match result with
  | Except.ok url =>
      { s with savedLog := s.savedLog ++ [finalMessage c now2 url],
               pendingAttachment := none }
  | Except.error _ =>
      { s with failedUploads := insertA s.failedUploads c.tempId
                 ⟨c.caption, c.file, c.uid, c.uname⟩,
               pendingAttachment := none }

/-- One whole `uploadAndSendAttachment` turn, start to finish. -/
def uploadAtomic (s : St) (now : Nat) (rand : List Nat)
    (uid uname caption : String) (transfer : Except String String) : St :=
  match uploadStart s now rand uid uname caption with
  | (s1, none) => s1
  | (s1, some c) => uploadFinish s1 c now (uploadOutcome c.file transfer)

/-- Model of `sendMessageFromComposer` (`src/app.js:1750-1862`): no latch; empty/
whitespace-only input with no pending attachment returns before any state
is touched; with an attachment the flow delegates to
`uploadAndSendAttachment`; otherwise the text flow registers a `sending`
placeholder, renders it and persists via `saveMessage` (`saveOk` is the
write outcome; on rejection only a toast is shown). -/
def sendMessageFromComposer (s : St) (input : String) (now : Nat)
    (rand : List Nat) (uid uname : String) (saveOk : Bool)
    (transfer : Except String String) : St :=
  let text := jsTrim input
  let hasAtt := s.pendingAttachment.isSome
  let hasText := decide (0 < text.toList.length)
  if !hasAtt && !hasText then s
  else if hasAtt then uploadAtomic s now rand uid uname text transfer
  else
    let r := genTempId s.gen now rand
    let ph : Msg :=
      { id := r.1, tempId := some r.1, type := "outgoing",
        status := some "sending", sender := uname, senderId := some uid,
        text := text, createdAt := now, image := none, video := none,
        file := none, progress := none }
    let s1 := { s with gen := r.2, pending := insertA s.pending r.1 ph,
                       domTempIds := s.domTempIds ++ [r.1] }
    if saveOk then
      let msgToSave : Msg :=
        { id := r.1, tempId := some r.1, type := "text",
          status := some "sent", sender := uname, senderId := some uid,
          text := text, createdAt := now, image := none, video := none,
          file := none, progress := none }
      { s1 with savedLog := s1.savedLog ++ [msgToSave],
                pending := setStatusA s1.pending r.1 "sent" }
    else s1

/-- Model of `retryUpload` (`src/app.js:2137-2193`): restore the failed context,
reset the original bubble (DOM only), set `pendingAttachment` back and
re-enter `uploadAndSendAttachment` — which generates a fresh `tempId`. -/
def retryUpload (s : St) (tempId : String) (now : Nat) (rand : List Nat)
    (transfer : Except String String) : St :=
  match lookupA s.failedUploads tempId with
  | none => s
  | some fu =>
      let s1 := { s with failedUploads := eraseA s.failedUploads tempId,
                         pendingAttachment := some fu.file }
      uploadAtomic s1 now rand fu.uid fu.uname fu.caption transfer

/-- Model of `cancelFileUpload` (`src/app.js:2370-2393`): clears the file input and
preview (DOM), resets `isUploading` and drops `pendingAttachment`; it
neither touches `pendingMessages` nor interrupts an in-flight transfer. -/
def cancelFileUpload (s : St) : St :=
  { s with isUploading := false, pendingAttachment := none }

end AppJs

/-! ### Second driver: `src/services/uploadService.js` -/

namespace UploadSvc

/-- A cached user profile (`userProfilesCache`): the fields the message
formatter consults for the display name. -/
structure Profile where
  displayName : Option String
  name : Option String
  deriving Repr, DecidableEq

/-- Thread-session state of the second driver: as the first driver's, plus
the per-thread `processedMessageIds` set and the `isSending`/`isUploading`
latches (`src/services/uploadService.js:559-568`). -/
structure St where
  cache : List Msg
  pending : List (String × Msg)
  processed : List String
  domTempIds : List String
  failedUploads : List (String × FailedUpload)
  pendingAttachment : Option FileV
  gen : GenState
  savedLog : List Msg
  isUploading : Bool
  isSending : Bool
  deriving Repr, DecidableEq

/-- The empty session. -/
def St.init : St := ⟨[], [], [], [], [], none, GenState.init, [], false, false⟩

/-- Model of `formatMessage` (`src/services/uploadService.js:1354-1426`), with the
profile lookup (cache or awaited fetch) abstracted into the pure map
`profiles`.  The display name chain is
`senderProfile?.displayName || senderProfile?.name ||
rawMessage.senderName || 'Unknown'`; the returned object again has no
`tempId`, `status`, `senderId` or `progress` keys. -/
def formatMessage (uid : String) (profiles : String → Option Profile)
    (raw : RawMsg) : Msg :=
  let profileName : Option String :=
    match profiles raw.senderId with
    | some p => p.displayName.orElse (fun _ => p.name)
    | none => none
  { id := raw.id
    tempId := none
    type := if raw.senderId == uid then "outgoing" else "incoming"
    status := none
    sender := profileName.getD
      (if raw.senderName == "" then "Unknown" else raw.senderName)
    senderId := none
    text := raw.text
    createdAt := raw.createdAt
    image := raw.image
    video := raw.video
    file := raw.file
    progress := none }

/-- The `openRoom` listener callback
(`src/services/uploadService.js:1714-1796`).  Step 1 consults the
`processedMessageIds` dedup ledger; step 2 matches
`rawMessage.tempId || rawMessage.id` against `pendingMessages` and, on a
match, replaces the cached slot found by
`tempId === matchId || id === matchId` in place — when no slot matches,
nothing is added to the cache — then deletes the pending entry and records
the id; step 3 skips ids already in the cache; otherwise the formatted
message is pushed and the cache re-sorted. -/
def applyRoom (uid : String) (profiles : String → Option Profile)
    (s : St) (raw : RawMsg) : St :=
  if s.processed.contains raw.id then s
  else
    let matchId := raw.tempId.getD raw.id
    match lookupA s.pending matchId with
    | some _ =>
        let f := formatMessage uid profiles raw
        let cache1 :=
          match s.cache.findIdx? (fun m => m.tempId == some matchId || m.id == matchId) with
          | some i => s.cache.set i f
          | none => s.cache
        { s with cache := cache1, pending := eraseA s.pending matchId,
                 processed := insertS s.processed raw.id }
    | none =>
        if s.cache.any (fun m => m.id == raw.id) then
          { s with processed := insertS s.processed raw.id }
        else
          let f := formatMessage uid profiles raw
          { s with cache := sortCache (s.cache ++ [f]),
                   processed := insertS s.processed raw.id }

/-- Model of `uploadAndSendAttachment` up to the `await uploadFile` boundary
(`src/services/uploadService.js:2941-2999`): the `isUploading` latch
rejects a second call outright; `attachmentToUse` is the explicit argument
or the `pendingAttachment` fallback (the retry path); otherwise a fresh
`tempId` is generated and the placeholder registered and rendered. -/
def uploadStart (s : St) (attachment : Option FileV) (now : Nat)
    (rand : List Nat) (uid uname caption : String) : St × Option UploadCtx :=
  if s.isUploading then (s, none)
  else
    match attachment.orElse (fun _ => s.pendingAttachment) with
    | none => (s, none)
    | some att =>
        let r := genTempId s.gen now rand
        let ph : Msg :=
          { id := r.1, tempId := some r.1, type := "uploading",
            status := some "uploading", progress := some 0, sender := uname,
            senderId := some uid, text := caption, createdAt := now,
            image := none, video := none, file := none }
        ({ s with isUploading := true, gen := r.2,
                  pending := insertA s.pending r.1 ph,
                  domTempIds := s.domTempIds ++ [r.1] },
          some ⟨r.1, caption, att, uid, uname⟩)

/-- Model of `uploadAndSendAttachment` after the awaited transfer resolves
(`src/services/uploadService.js:3001-3102`): success persists the final
message via `saveMessage` and clears `pendingAttachment`; failure records
the retry context in `failedUploads` and clears `pendingAttachment`; the
`finally` block resets `isUploading` in both cases.  Neither branch
removes `pendingMessages[tempId]`. -/
def uploadFinish (s : St) (c : UploadCtx) (now2 : Nat)
    (result : Except String String) : St :=
  match result with
  | Except.ok url =>
      { s with savedLog := s.savedLog ++ [finalMessage c now2 url],
               pendingAttachment := none, isUploading := false }
  | Except.error _ =>
      { s with failedUploads := insertA s.failedUploads c.tempId
                 ⟨c.caption, c.file, c.uid, c.uname⟩,
               pendingAttachment := none, isUploading := false }

/-- One whole `uploadAndSendAttachment` turn, start to finish. -/
def uploadAtomic (s : St) (attachment : Option FileV) (now : Nat)
    (rand : List Nat) (uid uname caption : String)
    (transfer : Except String String) : St :=
  match uploadStart s attachment now rand uid uname caption with
  | (s1, none) => s1
  | (s1, some c) => uploadFinish s1 c now (uploadOutcome c.file transfer)

/-- Model of `sendMessageFromComposer` (`src/services/uploadService.js:2794-2927`):
the `isSending` latch rejects a second call before anything happens;
empty/whitespace-only input with no pending attachment returns with no
state created; an attachment is captured and cleared, then the upload flow
runs; otherwise the text flow registers and persists a placeholder.  The
`finally` block restores `isSending`, so a completed turn leaves the latch
as it found it. -/
def sendMessageFromComposer (s : St) (input : String) (now : Nat)
    (rand : List Nat) (uid uname : String) (saveOk : Bool)
    (transfer : Except String String) : St :=
  if s.isSending then s
  else
    let text := jsTrim input
    let hasAtt := s.pendingAttachment.isSome
    let hasText := decide (0 < text.toList.length)
    if !hasAtt && !hasText then s
    else
      match s.pendingAttachment with
      | some att =>
          uploadAtomic { s with pendingAttachment := none } (some att)
            now rand uid uname text transfer
      | none =>
          let r := genTempId s.gen now rand
          let ph : Msg :=
            { id := r.1, tempId := some r.1, type := "outgoing",
              status := some "sending", sender := uname, senderId := some uid,
              text := text, createdAt := now, image := none, video := none,
              file := none, progress := none }
          let s1 := { s with gen := r.2, pending := insertA s.pending r.1 ph,
                             domTempIds := s.domTempIds ++ [r.1] }
          if saveOk then
            let msgToSave : Msg :=
              { id := r.1, tempId := some r.1, type := "text",
                status := some "sent", sender := uname, senderId := some uid,
                text := text, createdAt := now, image := none, video := none,
                file := none, progress := none }
            { s1 with savedLog := s1.savedLog ++ [msgToSave],
                      pending := setStatusA s1.pending r.1 "sent" }
          else s1

/-- Model of `retryUpload` (`src/services/uploadService.js:3236-3292`): restore the
failed context into `pendingAttachment` and re-enter
`uploadAndSendAttachment` (no explicit attachment argument), which mints a
fresh `tempId`. -/
def retryUpload (s : St) (tempId : String) (now : Nat) (rand : List Nat)
    (transfer : Except String String) : St :=
  match lookupA s.failedUploads tempId with
  | none => s
  | some fu =>
      let s1 := { s with failedUploads := eraseA s.failedUploads tempId,
                         pendingAttachment := some fu.file }
      uploadAtomic s1 none now rand fu.uid fu.uname fu.caption transfer

/-- Model of `cancelFileUpload` (`src/services/uploadService.js:3469-3492`): clears
the file input and preview (DOM), resets `isUploading` and drops
`pendingAttachment`; it neither removes any `pendingMessages` entry nor
aborts an in-flight transfer. -/
def cancelFileUpload (s : St) : St :=
  { s with isUploading := false, pendingAttachment := none }

/-! #### Ordering queue (`queueMessage` / `processMessageQueue`)

`src/services/uploadService.js:1435-1475`.  The queue state is
`messageQueue` (kept sorted by the event timestamp), the
`isProcessingQueue` latch, the item currently being enriched (the one
`shift`ed and awaiting `formatMessage`), and the sequence of callback
applications performed so far.  An execution is a sequence of events:
`enqueue` (a `queueMessage` call) and `settle ok` (the awaited enrichment
of the in-flight item resolves, `ok = false` standing for the caught
per-item failure, after which the loop continues with the next item). -/

/-- A queued event: its identity and `timestamp` field
(`rawMessage.createdAt`). -/
structure QItem where
  id : String
  ts : Nat
  deriving Repr, DecidableEq

/-- Queue order (`(a, b) => a.timestamp - b.timestamp`). -/
def qLE (a b : QItem) : Prop := a.ts ≤ b.ts

instance : DecidableRel qLE := fun a b =>
  inferInstanceAs (Decidable (a.ts ≤ b.ts))

instance : IsTotal QItem qLE := ⟨fun _ _ => Nat.le_total _ _⟩

instance : IsTrans QItem qLE := ⟨fun _ _ _ => Nat.le_trans⟩

/-- Model of `this.messageQueue.sort(...)`. -/
def sortQueue (q : List QItem) : List QItem := List.insertionSort qLE q

/-- Queue state. -/
structure QSt where
  messageQueue : List QItem
  isProcessingQueue : Bool
  inFlight : Option QItem
  applied : List QItem
  deriving Repr, DecidableEq

/-- Initial queue state (`messageQueue: []`,
`isProcessingQueue: false`). -/
def QSt.init : QSt := ⟨[], false, none, []⟩

/-- Scheduler events. -/
inductive QEv where
  | enqueue (it : QItem)
  | settle (ok : Bool)
  deriving Repr, DecidableEq

/-- One scheduler step.  `enqueue`: `queueMessage` pushes and sorts; when
`isProcessingQueue` is clear, `processMessageQueue` sets it and its loop
synchronously `shift`s the head into enrichment.  `settle`: the awaited
enrichment finishes; on success the callback applies the item (on failure
the `catch` only logs); then the loop `shift`s the next item, or clears
the latch when the buffer is empty. -/
def qstep (s : QSt) (e : QEv) : QSt :=
  match e with
  | QEv.enqueue it =>
      let s := { s with messageQueue := sortQueue (s.messageQueue ++ [it]) }
      if s.isProcessingQueue then s
      else
        match s.messageQueue with
        | [] => s
        | h :: t =>
            { s with isProcessingQueue := true, messageQueue := t,
                     inFlight := some h }
  | QEv.settle ok =>
      match s.inFlight with
      | none => s
      | some it =>
          let applied := if ok then s.applied ++ [it] else s.applied
          match s.messageQueue with
          | h :: t =>
              { s with applied := applied, messageQueue := t,
                       inFlight := some h }
          | [] =>
              { s with applied := applied, inFlight := none,
                       isProcessingQueue := false }

/-- Run a whole event sequence. -/
def qrun (s : QSt) (evs : List QEv) : QSt := evs.foldl qstep s

end UploadSvc

/-! ### Helper lemmas -/

theorem lookupA_insertA {β : Type} (l : List (String × β)) (k : String)
    (v : β) : lookupA (insertA l k v) k = some v := by
  induction l with
  | nil => simp [insertA, lookupA]
  | cons p rest ih =>
      by_cases h : p.1 == k
      · simp [insertA, h, lookupA]
      · simpa [insertA, h, lookupA] using ih

theorem lookupA_eraseA {β : Type} (l : List (String × β)) (k : String) :
    lookupA (eraseA l k) k = none := by
  induction l with
  | nil => rfl
  | cons p rest ih =>
      by_cases h : p.1 == k
      · simpa [eraseA, List.filter_cons, h] using ih
      · simpa [eraseA, List.filter_cons, h, lookupA] using ih

theorem mem_set_self {α : Type} {l : List α} {i : Nat} (h : i < l.length)
    (a : α) : a ∈ l.set i a := by
  have h2 : i < (l.set i a).length := by simpa using h
  have hm := List.getElem_mem h2
  rwa [List.getElem_set_self (by simpa using h)] at hm

theorem contains_insertS (l : List String) (x : String) :
    (insertS l x).contains x = true := by
  unfold insertS
  by_cases h : l.contains x = true
  · rw [if_pos h]; exact h
  · rw [if_neg h]; simp

theorem mem_sortCache {m : Msg} {l : List Msg} (h : m ∈ l) :
    m ∈ sortCache l :=
  ((List.perm_insertionSort cacheLE l).mem_iff).mpr h

theorem formatMessage_tempId_appjs (uid : String) (raw : RawMsg) :
    (AppJs.formatMessage uid raw).tempId = none := rfl

theorem formatMessage_id_appjs (uid : String) (raw : RawMsg) :
    (AppJs.formatMessage uid raw).id = raw.id := rfl

/-- When no pending placeholder matches, the first driver's listener
reduces to `applyRest`. -/
theorem applyRoom_appjs_eq_applyRest (uid : String) (s : AppJs.St)
    (raw : RawMsg) (hlook : lookupA s.pending raw.id = none) :
    AppJs.applyRoom uid s raw
      = AppJs.applyRest s (AppJs.formatMessage uid raw) := by
  unfold AppJs.applyRoom
  simp [formatMessage_tempId_appjs, formatMessage_id_appjs, hlook]

/-- Case analysis of `applyRest`: either the event's id ends up in the
cache, or the state is returned untouched because of one of the two skip
checks. -/
theorem applyRest_appjs_cases (s : AppJs.St) (f : Msg) :
    ((AppJs.applyRest s f).cache.any (fun m => m.id == f.id) = true)
    ∨ (AppJs.applyRest s f = s ∧ s.sentIds.contains f.id = true)
    ∨ (AppJs.applyRest s f = s
        ∧ s.cache.any (fun m => m.id == f.id) = true) := by
  unfold AppJs.applyRest
  by_cases hc : (s.cache.any fun m => m.id == f.id) = true
  · right; right; rw [if_pos hc]; exact ⟨rfl, hc⟩
  · by_cases hs : s.sentIds.contains f.id = true
    · right; left; rw [if_neg hc, if_pos hs]; exact ⟨rfl, hs⟩
    · left; rw [if_neg hc, if_neg hs]
      exact List.any_eq_true.mpr ⟨f, mem_sortCache (by simp), by simp⟩

/-- After any application of the first driver's listener, the cache
contains an entry whose id is the event's id, or the state was returned
untouched by a skip check. -/
theorem applyRoom_appjs_cache_has (uid : String) (s : AppJs.St)
    (raw : RawMsg) :
    ((AppJs.applyRoom uid s raw).cache.any
        (fun m => m.id == raw.id) = true)
    ∨ (AppJs.applyRoom uid s raw = s ∧ s.sentIds.contains raw.id = true)
    ∨ (AppJs.applyRoom uid s raw = s ∧ s.cache.any
        (fun m => m.id == raw.id) = true) := by
  cases hlook : lookupA s.pending raw.id with
  | some pm =>
      left
      unfold AppJs.applyRoom
      simp only [formatMessage_tempId_appjs, Option.getD_none,
        formatMessage_id_appjs, hlook]
      cases hidx : s.cache.findIdx?
          (fun m => m.tempId == some raw.id || m.id == raw.id) with
      | some i =>
          have hi : i < s.cache.length :=
            (List.findIdx?_eq_some_iff_getElem.mp hidx).fst
          exact List.any_eq_true.mpr
            ⟨AppJs.formatMessage uid raw, mem_set_self hi _, by
              simp [formatMessage_id_appjs]⟩
      | none =>
          exact List.any_eq_true.mpr
            ⟨AppJs.formatMessage uid raw, by simp, by
              simp [formatMessage_id_appjs]⟩
  | none =>
      rw [applyRoom_appjs_eq_applyRest uid s raw hlook]
      simpa [formatMessage_id_appjs] using
        applyRest_appjs_cases s (AppJs.formatMessage uid raw)

theorem applyRest_appjs_of_cache (s : AppJs.St) (f : Msg)
    (h : (s.cache.any fun m => m.id == f.id) = true) :
    AppJs.applyRest s f = s := by
  unfold AppJs.applyRest; rw [if_pos h]

theorem applyRest_appjs_of_sent (s : AppJs.St) (f : Msg)
    (h : s.sentIds.contains f.id = true) :
    AppJs.applyRest s f = s := by
  unfold AppJs.applyRest
  by_cases hc : (s.cache.any fun m => m.id == f.id) = true
  · rw [if_pos hc]
  · rw [if_neg hc, if_pos h]

theorem applyRest_appjs_pending (s : AppJs.St) (f : Msg) :
    (AppJs.applyRest s f).pending = s.pending := by
  unfold AppJs.applyRest
  split_ifs <;> rfl

theorem applyRest_appjs_sentIds (s : AppJs.St) (f : Msg) :
    (AppJs.applyRest s f).sentIds = s.sentIds := by
  unfold AppJs.applyRest
  split_ifs <;> rfl

/-- After any application of the first driver's listener, no pending entry
is keyed by the event's id. -/
theorem applyRoom_appjs_pending_none (uid : String) (s : AppJs.St)
    (raw : RawMsg) :
    lookupA (AppJs.applyRoom uid s raw).pending raw.id = none := by
  cases hlook : lookupA s.pending raw.id with
  | some pm =>
      unfold AppJs.applyRoom
      simp only [formatMessage_tempId_appjs, Option.getD_none,
        formatMessage_id_appjs, hlook]
      exact lookupA_eraseA _ _
  | none =>
      rw [applyRoom_appjs_eq_applyRest uid s raw hlook,
        applyRest_appjs_pending]
      exact hlook

/-- Re-applying the same event is a no-op on the whole first-driver
state. -/
theorem applyRoom_appjs_reapply (uid : String) (s : AppJs.St)
    (raw : RawMsg) :
    AppJs.applyRoom uid (AppJs.applyRoom uid s raw) raw
      = AppJs.applyRoom uid s raw := by
  rw [applyRoom_appjs_eq_applyRest uid _ raw
    (applyRoom_appjs_pending_none uid s raw)]
  rcases applyRoom_appjs_cache_has uid s raw with h | ⟨he, hs⟩ | ⟨he, hc⟩
  · exact applyRest_appjs_of_cache _ _
      (by simpa [formatMessage_id_appjs] using h)
  · exact applyRest_appjs_of_sent _ _
      (by rw [he]; simpa [formatMessage_id_appjs] using hs)
  · exact applyRest_appjs_of_cache _ _
      (by rw [he]; simpa [formatMessage_id_appjs] using hc)

theorem applyRoom_upsvc_of_processed (uid : String)
    (profiles : String → Option UploadSvc.Profile) (s : UploadSvc.St)
    (raw : RawMsg) (h : s.processed.contains raw.id = true) :
    UploadSvc.applyRoom uid profiles s raw = s := by
  unfold UploadSvc.applyRoom; rw [if_pos h]

/-- Every application of the second driver's listener leaves the event's
id in the dedup ledger. -/
theorem applyRoom_upsvc_processed (uid : String)
    (profiles : String → Option UploadSvc.Profile) (s : UploadSvc.St)
    (raw : RawMsg) :
    (UploadSvc.applyRoom uid profiles s raw).processed.contains raw.id
      = true := by
  by_cases h : s.processed.contains raw.id = true
  · rw [applyRoom_upsvc_of_processed uid profiles s raw h]; exact h
  · unfold UploadSvc.applyRoom
    cases hlook : lookupA s.pending (raw.tempId.getD raw.id) with
    | some pm =>
        simp only [if_neg h, hlook]
        exact contains_insertS _ _
    | none =>
        by_cases hc : (s.cache.any fun m => m.id == raw.id) = true
        · simp only [if_neg h, hlook, if_pos hc]
          exact contains_insertS _ _
        · simp only [if_neg h, hlook, if_neg hc]
          exact contains_insertS _ _

/-- Re-applying the same event is a no-op on the whole second-driver
state. -/
theorem applyRoom_upsvc_reapply (uid : String)
    (profiles : String → Option UploadSvc.Profile) (s : UploadSvc.St)
    (raw : RawMsg) :
    UploadSvc.applyRoom uid profiles
        (UploadSvc.applyRoom uid profiles s raw) raw
      = UploadSvc.applyRoom uid profiles s raw :=
  applyRoom_upsvc_of_processed uid profiles _ raw
    (applyRoom_upsvc_processed uid profiles s raw)

/-! ### Generator lemmas -/

theorem incRandRev_replicate (k d : Nat) (r : List Nat) (hd : d ≠ 63) :
    incRandRev (List.replicate k 63 ++ d :: r)
      = List.replicate k 0 ++ (d + 1) :: r := by
  induction k with
  | zero =>
      simp [incRandRev, hd]
  | succ n ih =>
      simp [List.replicate_succ, incRandRev, ih]

theorem exists_decomp_rev (r : List Nat)
    (h : r ≠ List.replicate r.length 63) :
    ∃ k d t, r = List.replicate k 63 ++ d :: t ∧ d ≠ 63 := by
  induction r with
  | nil => exact absurd rfl h
  | cons c rest ih =>
      by_cases hc : c = 63
      · subst hc
        have hrest : rest ≠ List.replicate rest.length 63 := by
          intro he
          exact h (by simp [List.replicate_succ, ← he])
        obtain ⟨k, d, t, heq, hd⟩ := ih hrest
        exact ⟨k + 1, d, t, by simp [List.replicate_succ, heq], hd⟩
      · exact ⟨0, c, rest, by simp, hc⟩

theorem decomp_of_ne_replicate (l : List Nat)
    (h : l ≠ List.replicate l.length 63) :
    ∃ a d k, l = a ++ d :: List.replicate k 63 ∧ d ≠ 63 := by
  have hrev : l.reverse ≠ List.replicate l.reverse.length 63 := by
    intro he
    apply h
    have := congrArg List.reverse he
    simpa [List.reverse_replicate] using this
  obtain ⟨k, d, t, heq, hd⟩ := exists_decomp_rev l.reverse hrev
  refine ⟨t.reverse, d, k, ?_, hd⟩
  have := congrArg List.reverse heq
  simpa [List.reverse_append, List.reverse_replicate] using this

theorem incRand_decomp (l a : List Nat) (d k : Nat)
    (h : l = a ++ d :: List.replicate k 63) (hd : d ≠ 63) :
    incRand l = a ++ (d + 1) :: List.replicate k 0 := by
  have hrev : l.reverse = List.replicate k 63 ++ d :: a.reverse := by
    simp [h, List.reverse_append, List.reverse_replicate]
  have := congrArg List.reverse
    (hrev ▸ incRandRev_replicate k d a.reverse hd)
  simpa [incRand, List.reverse_append, List.reverse_replicate] using this

theorem incRandRev_length (r : List Nat) :
    (incRandRev r).length = r.length := by
  induction r with
  | nil => rfl
  | cons c t ih =>
      by_cases hc : (c == 63) = true
      · simp [incRandRev, hc, ih]
      · simp [incRandRev, hc]

theorem incRand_length (l : List Nat) : (incRand l).length = l.length := by
  simp [incRand, incRandRev_length]

theorem incRandRev_lt64 (r : List Nat) (h : ∀ c ∈ r, c < 64) :
    ∀ c ∈ incRandRev r, c < 64 := by
  induction r with
  | nil => simp [incRandRev]
  | cons c t ih =>
      intro x hx
      simp only [incRandRev] at hx
      by_cases hc : (c == 63) = true
      · rw [if_pos hc] at hx
        rcases List.mem_cons.mp hx with rfl | hx2
        · omega
        · exact ih (fun y hy => h y (List.mem_cons_of_mem _ hy)) x hx2
      · rw [if_neg hc] at hx
        rcases List.mem_cons.mp hx with rfl | hx2
        · have hc' : c ≠ 63 := by simpa using hc
          have := h c (List.mem_cons_self _ _)
          omega
        · exact h x (List.mem_cons_of_mem _ hx2)

theorem wfSuffix_incRand {l : List Nat} (h : WfSuffix l) :
    WfSuffix (incRand l) := by
  refine ⟨by rw [incRand_length]; exact h.1, ?_⟩
  intro c hc
  exact incRandRev_lt64 l.reverse
    (fun x hx => h.2 x (List.mem_reverse.mp hx)) c
    (List.mem_reverse.mp (by simpa [incRand] using hc))

theorem genTempId_suffix_wf (g : GenState) (now : Nat) (rand : List Nat)
    (hg : WfSuffix g.lastRandChars) (hr : WfSuffix rand) :
    WfSuffix (genTempId g now rand).2.lastRandChars := by
  unfold genTempId
  by_cases h : (now == g.lastPushTime) = true
  · simpa [h] using wfSuffix_incRand hg
  · simpa [h] using hr

theorem genTempId_dup_suffix (g : GenState) (now : Nat) (rand : List Nat)
    (h : g.lastPushTime = now) :
    (genTempId g now rand).2.lastRandChars = incRand g.lastRandChars := by
  unfold genTempId
  simp [h]

theorem genTempId_key_toList (g : GenState) (now : Nat) (rand : List Nat) :
    (genTempId g now rand).1.toList
      = '-' :: (timeStampChars now
          ++ ((genTempId g now rand).2.lastRandChars.map pushChar)) := rfl

theorem pushChar_mono_fin :
    ∀ i j : Fin 64, i < j → pushChar i.val < pushChar j.val := by decide

theorem pushChar_lt_pushChar {i j : Nat} (hij : i < j) (hj : j < 64) :
    pushChar i < pushChar j :=
  pushChar_mono_fin ⟨i, lt_trans hij hj⟩ ⟨j, hj⟩ hij

theorem lex_append_left {p a b : List Char}
    (h : List.Lex (· < ·) a b) :
    List.Lex (· < ·) (p ++ a) (p ++ b) := by
  induction p with
  | nil => simpa using h
  | cons c cs ih => exact List.Lex.cons ih

theorem map_pushChar_lex (l : List Nat) (hl : ∀ c ∈ l, c < 64)
    (hne : l ≠ List.replicate l.length 63) :
    List.Lex (· < ·) (l.map pushChar) ((incRand l).map pushChar) := by
  obtain ⟨a, d, k, heq, hd⟩ := decomp_of_ne_replicate l hne
  rw [incRand_decomp l a d k heq hd, heq]
  simp only [List.map_append, List.map_cons]
  apply lex_append_left
  apply List.Lex.rel
  have hd64 : d < 64 := hl d (by rw [heq]; simp)
  exact pushChar_lt_pushChar (Nat.lt_succ_self d) (by omega)

theorem pushChars_length : pushChars.length = 64 := by decide

theorem pushChar_mem {n : Nat} (h : n < 64) : pushChar n ∈ pushChars := by
  have hn : n < pushChars.length := by rw [pushChars_length]; exact h
  rw [pushChar, List.getD_eq_getElem pushChars '?' hn]
  exact List.getElem_mem hn

theorem takeWhile63_full (r : List Nat)
    (h : (r.takeWhile (fun c => c == 63)).length = r.length) :
    r = List.replicate r.length 63 := by
  induction r with
  | nil => rfl
  | cons c t ih =>
      by_cases hc : (c == 63) = true
      · have hc' : c = 63 := by simpa using hc
        rw [List.takeWhile_cons, if_pos hc] at h
        simp only [List.length_cons, Nat.succ_inj] at h
        rw [List.length_cons, List.replicate_succ, hc', ← ih h]
      · rw [List.takeWhile_cons, if_neg hc] at h
        simp at h

theorem carryWriteIndex_bounds (l : List Nat) (hlen : l.length = 12)
    (hne : l ≠ List.replicate 12 63) :
    0 ≤ carryWriteIndex l ∧ carryWriteIndex l ≤ 11 := by
  have hle : (l.reverse.takeWhile (fun c => c == 63)).length
      ≤ l.reverse.length := (List.takeWhile_prefix _).length_le
  have hlenrev : l.reverse.length = 12 := by simpa using hlen
  have h11 : (l.reverse.takeWhile (fun c => c == 63)).length ≤ 11 := by
    rcases Nat.lt_or_ge (l.reverse.takeWhile (fun c => c == 63)).length 12
      with h | h
    · omega
    · exfalso
      have hfull := takeWhile63_full l.reverse (by omega)
      apply hne
      have := congrArg List.reverse hfull
      simpa [List.reverse_replicate, hlenrev] using this
  unfold carryWriteIndex
  omega

/-! ### Cache-invariant lemmas -/

/-- The invariant the listener paths maintain on a thread cache: no two
entries share an id, and cache entries are formatted messages, which carry
no `tempId` key. -/
def CacheInvariant (cache : List Msg) : Prop :=
  (cache.map Msg.id).Nodup ∧ ∀ m ∈ cache, m.tempId = none

instance : DecidablePred CacheInvariant := fun cache =>
  inferInstanceAs
    (Decidable ((cache.map Msg.id).Nodup ∧ ∀ m ∈ cache, m.tempId = none))

theorem set_getElem_self {α : Type} (l : List α) (i : Nat)
    (h : i < l.length) : l.set i l[i] = l := by
  apply List.ext_getElem
  · simp
  · intro n h1 h2
    by_cases hn : n = i
    · subst hn
      rw [List.getElem_set_self]
    · rw [List.getElem_set_ne (Ne.symm hn)]

theorem forall_of_any_eq_false {α : Type} {l : List α} {p : α → Bool}
    (h : l.any p = false) : ∀ x ∈ l, p x = false := by
  intro x hx
  by_contra hpx
  have h2 : l.any p = true := List.any_eq_true.mpr ⟨x, hx, by simpa using hpx⟩
  rw [h] at h2
  exact Bool.false_ne_true h2

theorem sortCache_sorted (l : List Msg) :
    List.Sorted cacheLE (sortCache l) :=
  List.sorted_insertionSort cacheLE l

theorem cacheInvariant_set (cache : List Msg) (f : Msg) (matchId : String)
    (i : Nat) (hfid : f.id = matchId) (hft : f.tempId = none)
    (hidx : cache.findIdx?
        (fun m => m.tempId == some matchId || m.id == matchId) = some i)
    (hinv : CacheInvariant cache) : CacheInvariant (cache.set i f) := by
  obtain ⟨hi, hpred, -⟩ := List.findIdx?_eq_some_iff_getElem.mp hidx
  have htid := hinv.2 (cache[i]) (List.getElem_mem hi)
  have hid : cache[i].id = matchId := by
    have hp := hpred
    simp only [htid] at hp
    simpa using hp
  constructor
  · have hmap : (cache.set i f).map Msg.id = cache.map Msg.id := by
      rw [List.map_set]
      have hibound : i < (cache.map Msg.id).length := by simpa using hi
      have hgi : (cache.map Msg.id)[i] = cache[i].id := List.getElem_map _
      rw [hfid, ← hid, ← hgi, set_getElem_self]
    rw [hmap]
    exact hinv.1
  · intro m hm
    rcases List.mem_or_eq_of_mem_set hm with hm2 | rfl
    · exact hinv.2 m hm2
    · exact hft

theorem cacheInvariant_sortAppend (cache : List Msg) (f : Msg)
    (hinv : CacheInvariant cache) (hnot : ∀ m ∈ cache, ¬ m.id = f.id)
    (hft : f.tempId = none) :
    CacheInvariant (sortCache (cache ++ [f])) := by
  have hperm : List.Perm (sortCache (cache ++ [f])) (cache ++ [f]) :=
    List.perm_insertionSort cacheLE (cache ++ [f])
  constructor
  · refine (List.Perm.nodup_iff (List.Perm.map Msg.id hperm)).mpr ?_
    simp only [List.map_append, List.map_cons, List.map_nil]
    rw [List.nodup_append]
    refine ⟨hinv.1, List.nodup_singleton _, ?_⟩
    intro x hx
    simp only [List.mem_singleton]
    obtain ⟨m, hm, rfl⟩ := List.mem_map.mp hx
    intro he
    exact hnot m hm he
  · intro m hm
    rcases List.mem_append.mp (hperm.mem_iff.mp hm) with hm2 | hm2
    · exact hinv.2 m hm2
    · rw [List.mem_singleton.mp hm2]
      exact hft

theorem cacheInvariant_append (cache : List Msg) (f : Msg)
    (hnot : ∀ m ∈ cache, ¬ m.id = f.id) (hft : f.tempId = none)
    (hinv : CacheInvariant cache) : CacheInvariant (cache ++ [f]) := by
  constructor
  · simp only [List.map_append, List.map_cons, List.map_nil]
    rw [List.nodup_append]
    refine ⟨hinv.1, List.nodup_singleton _, ?_⟩
    intro x hx
    simp only [List.mem_singleton]
    obtain ⟨m, hm, rfl⟩ := List.mem_map.mp hx
    intro he
    exact hnot m hm he
  · intro m hm
    rcases List.mem_append.mp hm with hm2 | hm2
    · exact hinv.2 m hm2
    · rw [List.mem_singleton.mp hm2]
      exact hft

/-- The first driver's listener preserves the cache invariant. -/
theorem applyRoom_appjs_invariant (uid : String) (s : AppJs.St)
    (raw : RawMsg) (hinv : CacheInvariant s.cache) :
    CacheInvariant (AppJs.applyRoom uid s raw).cache := by
  cases hlook : lookupA s.pending raw.id with
  | some pm =>
      unfold AppJs.applyRoom
      simp only [formatMessage_tempId_appjs, Option.getD_none,
        formatMessage_id_appjs, hlook]
      cases hidx : s.cache.findIdx?
          (fun m => m.tempId == some raw.id || m.id == raw.id) with
      | some i =>
          exact cacheInvariant_set s.cache _ raw.id i
            (formatMessage_id_appjs uid raw)
            (formatMessage_tempId_appjs uid raw) hidx hinv
      | none =>
          refine cacheInvariant_append s.cache _ ?_
            (formatMessage_tempId_appjs uid raw) hinv
          intro m hm
          have := List.findIdx?_eq_none_iff.mp hidx m hm
          simp only [Bool.or_eq_false_iff, beq_eq_false_iff_ne, ne_eq]
            at this
          rw [formatMessage_id_appjs]
          exact this.2
  | none =>
      rw [applyRoom_appjs_eq_applyRest uid s raw hlook]
      unfold AppJs.applyRest
      by_cases hc : (s.cache.any
          fun m => m.id == (AppJs.formatMessage uid raw).id) = true
      · rw [if_pos hc]; exact hinv
      · rw [if_neg hc]
        by_cases hs : s.sentIds.contains (AppJs.formatMessage uid raw).id
            = true
        · rw [if_pos hs]; exact hinv
        · rw [if_neg hs]
          refine cacheInvariant_sortAppend s.cache _ hinv ?_
            (formatMessage_tempId_appjs uid raw)
          intro m hm
          have := forall_of_any_eq_false
            (Bool.eq_false_iff.mpr hc) m hm
          simpa using this

/-- The second driver's listener preserves the cache invariant for events
as `firebaseService.listenForMessages` delivers them (no `tempId` field;
a hand-crafted event with `tempId ≠ id` could replace a slot found by the
tempId and duplicate an id, but the service never produces one). -/
theorem applyRoom_upsvc_invariant (uid : String)
    (profiles : String → Option UploadSvc.Profile) (s : UploadSvc.St)
    (raw : RawMsg) (htid : raw.tempId = none)
    (hinv : CacheInvariant s.cache) :
    CacheInvariant (UploadSvc.applyRoom uid profiles s raw).cache := by
  by_cases hpr : s.processed.contains raw.id = true
  · rw [applyRoom_upsvc_of_processed uid profiles s raw hpr]
    exact hinv
  · unfold UploadSvc.applyRoom
    cases hlook : lookupA s.pending raw.id with
    | some pm =>
        simp only [if_neg hpr, htid, Option.getD_none, hlook]
        cases hidx : s.cache.findIdx?
            (fun m => m.tempId == some raw.id || m.id == raw.id) with
        | some i =>
            exact cacheInvariant_set s.cache _ raw.id i rfl rfl hidx hinv
        | none =>
            exact hinv
    | none =>
        by_cases hc : (s.cache.any fun m => m.id == raw.id) = true
        · simp only [if_neg hpr, htid, Option.getD_none, hlook, if_pos hc]
          exact hinv
        · simp only [if_neg hpr, htid, Option.getD_none, hlook, if_neg hc]
          refine cacheInvariant_sortAppend s.cache _ hinv ?_ rfl
          intro m hm
          have := forall_of_any_eq_false (Bool.eq_false_iff.mpr hc) m hm
          simpa using this

/-! ### Claim theorems -/

/-- C2: applying the same remote event (same id, same thread) a second
time leaves the message cache unchanged — in the first driver the cache
check (`src/app.js:741-746`) or the earlier branches stop it, in the
second driver the `processedMessageIds` ledger does
(`src/services/uploadService.js:1717-1727`); in both drivers the second
application indeed changes nothing. -/
theorem c2_idempotent_application (uid : String)
    (profiles : String → Option UploadSvc.Profile) (s1 : AppJs.St)
    (s2 : UploadSvc.St) (raw : RawMsg) :
    (AppJs.applyRoom uid (AppJs.applyRoom uid s1 raw) raw).cache
        = (AppJs.applyRoom uid s1 raw).cache
    ∧ (UploadSvc.applyRoom uid profiles
          (UploadSvc.applyRoom uid profiles s2 raw) raw).cache
        = (UploadSvc.applyRoom uid profiles s2 raw).cache :=
  ⟨congrArg AppJs.St.cache (applyRoom_appjs_reapply uid s1 raw),
    congrArg UploadSvc.St.cache (applyRoom_upsvc_reapply uid profiles s2 raw)⟩

/-- A concrete first-driver run: a foreign message at `createdAt = 100`
arrives, then the user sends a text at `createdAt = 50` (the clock-skew
situation the spec explicitly admits), then the echo of the send (same id
as the generated `tempId`, `createdAt = 50`) arrives and is merged. -/
def c3Pipeline : AppJs.St :=
  AppJs.applyRoom "u1"
    (AppJs.sendMessageFromComposer
      (AppJs.applyRoom "u1" AppJs.St.init
        { id := "A", tempId := none, senderId := "other",
          senderName := "Bob", text := "x", createdAt := 100,
          image := none, video := none, file := none })
      "hi" 50 (List.replicate 12 0) "u1" "Me" true (Except.error ""))
    { id := (genTempId GenState.init 50 (List.replicate 12 0)).1,
      tempId := none, senderId := "u1", senderName := "Me", text := "hi",
      createdAt := 50, image := none, video := none, file := none }

/-- C3 (counterexample): after the merge path reconciles the echo, the
cache iteration order is `[100, 50]` — NOT non-decreasing in `createdAt`:
the merge branch appends the reconciled message at the end without
re-sorting (`src/app.js:705-710`), so the invariant is not preserved by
every operation. -/
theorem c3_counterexample :
    c3Pipeline.cache.map (fun m => m.createdAt) = [100, 50]
    ∧ ¬ List.Sorted cacheLE c3Pipeline.cache := by
  have hmap : c3Pipeline.cache.map (fun m => m.createdAt) = [100, 50] := by
    decide
  refine ⟨hmap, fun hsort => ?_⟩
  have h2 : (c3Pipeline.cache.map (fun m => m.createdAt)).Pairwise
      (· ≤ ·) := List.pairwise_map.mpr hsort
  rw [hmap] at h2
  simp [List.pairwise_cons] at h2

/-- C3 (amended): for events as the service delivers them, both listeners
preserve id-uniqueness of the cache (no two entries share an id), and the
insert path for genuinely new messages re-sorts, so after such an
insertion the cache is non-decreasing in `createdAt`; the merge path,
however, replaces in place or appends without re-sorting (see the
counterexample). -/
theorem c3_cache_uniqueness_and_new_path_order (uid : String)
    (profiles : String → Option UploadSvc.Profile) (s1 : AppJs.St)
    (s2 : UploadSvc.St) (raw : RawMsg) (htid : raw.tempId = none) :
    (CacheInvariant s1.cache
        → CacheInvariant (AppJs.applyRoom uid s1 raw).cache)
    ∧ (CacheInvariant s2.cache
        → CacheInvariant (UploadSvc.applyRoom uid profiles s2 raw).cache)
    ∧ (lookupA s1.pending raw.id = none →
        (s1.cache.any fun m => m.id == raw.id) = false →
        s1.sentIds.contains raw.id = false →
        List.Sorted cacheLE (AppJs.applyRoom uid s1 raw).cache)
    ∧ (s2.processed.contains raw.id = false →
        lookupA s2.pending raw.id = none →
        (s2.cache.any fun m => m.id == raw.id) = false →
        List.Sorted cacheLE
          (UploadSvc.applyRoom uid profiles s2 raw).cache) := by
  refine ⟨applyRoom_appjs_invariant uid s1 raw,
    applyRoom_upsvc_invariant uid profiles s2 raw htid, ?_, ?_⟩
  · intro hlook hc hs
    have hc' : ¬ (s1.cache.any
        fun m => m.id == (AppJs.formatMessage uid raw).id) = true := by
      simp only [formatMessage_id_appjs, hc]
      exact Bool.false_ne_true
    have hs' : ¬ s1.sentIds.contains (AppJs.formatMessage uid raw).id
        = true := by
      simp only [formatMessage_id_appjs, hs]
      exact Bool.false_ne_true
    rw [applyRoom_appjs_eq_applyRest uid s1 raw hlook]
    unfold AppJs.applyRest
    rw [if_neg hc', if_neg hs']
    exact sortCache_sorted _
  · intro hpr hlook hc
    have hpr' : ¬ s2.processed.contains raw.id = true := by
      rw [hpr]; exact Bool.false_ne_true
    have hc' : ¬ (s2.cache.any fun m => m.id == raw.id) = true := by
      rw [hc]; exact Bool.false_ne_true
    unfold UploadSvc.applyRoom
    rw [if_neg hpr']
    simp only [htid, Option.getD_none, hlook]
    rw [if_neg hc']
    exact sortCache_sorted _

/-- C3 witness: concrete states and a concrete delivered event, with
every hypothesis discharged. -/
theorem c3_cache_uniqueness_and_new_path_order_witness :
    CacheInvariant (AppJs.applyRoom "u1" AppJs.St.init
        { id := "A", tempId := none, senderId := "other",
          senderName := "Bob", text := "x", createdAt := 100,
          image := none, video := none, file := none }).cache
    ∧ CacheInvariant (UploadSvc.applyRoom "u1" (fun _ => none)
        UploadSvc.St.init
        { id := "A", tempId := none, senderId := "other",
          senderName := "Bob", text := "x", createdAt := 100,
          image := none, video := none, file := none }).cache
    ∧ List.Sorted cacheLE (AppJs.applyRoom "u1" AppJs.St.init
        { id := "A", tempId := none, senderId := "other",
          senderName := "Bob", text := "x", createdAt := 100,
          image := none, video := none, file := none }).cache
    ∧ List.Sorted cacheLE (UploadSvc.applyRoom "u1" (fun _ => none)
        UploadSvc.St.init
        { id := "A", tempId := none, senderId := "other",
          senderName := "Bob", text := "x", createdAt := 100,
          image := none, video := none, file := none }).cache :=
  ⟨(c3_cache_uniqueness_and_new_path_order "u1" (fun _ => none)
      AppJs.St.init UploadSvc.St.init
      { id := "A", tempId := none, senderId := "other",
        senderName := "Bob", text := "x", createdAt := 100,
        image := none, video := none, file := none } rfl).1 (by decide),
    (c3_cache_uniqueness_and_new_path_order "u1" (fun _ => none)
      AppJs.St.init UploadSvc.St.init
      { id := "A", tempId := none, senderId := "other",
        senderName := "Bob", text := "x", createdAt := 100,
        image := none, video := none, file := none } rfl).2.1 (by decide),
    (c3_cache_uniqueness_and_new_path_order "u1" (fun _ => none)
      AppJs.St.init UploadSvc.St.init
      { id := "A", tempId := none, senderId := "other",
        senderName := "Bob", text := "x", createdAt := 100,
        image := none, video := none, file := none } rfl).2.2.1
      (by decide) (by decide) (by decide),
    (c3_cache_uniqueness_and_new_path_order "u1" (fun _ => none)
      AppJs.St.init UploadSvc.St.init
      { id := "A", tempId := none, senderId := "other",
        senderName := "Bob", text := "x", createdAt := 100,
        image := none, video := none, file := none } rfl).2.2.2
      (by decide) (by decide) (by decide)⟩

/-- C5 (counterexample): two consecutive `genTempId` calls in the same
millisecond (`now = 5` twice) where the first call's random draw is the
all-`63` suffix.  The carry of the second call wraps the suffix to all
zeros, so the second key is NOT strictly greater than the first — it is
strictly smaller. -/
theorem c5_counterexample :
    (genTempId (genTempId ⟨4, List.replicate 12 0⟩ 5
          (List.replicate 12 63)).2 5 (List.replicate 12 0)).1
        < (genTempId ⟨4, List.replicate 12 0⟩ 5 (List.replicate 12 63)).1
    ∧ ¬ ((genTempId ⟨4, List.replicate 12 0⟩ 5 (List.replicate 12 63)).1
        < (genTempId (genTempId ⟨4, List.replicate 12 0⟩ 5
            (List.replicate 12 63)).2 5 (List.replicate 12 0)).1) := by
  have h : (genTempId (genTempId ⟨4, List.replicate 12 0⟩ 5
        (List.replicate 12 63)).2 5 (List.replicate 12 0)).1
      < (genTempId ⟨4, List.replicate 12 0⟩ 5 (List.replicate 12 63)).1 :=
    String.lt_iff_toList_lt.mpr (by decide)
  exact ⟨h, fun hlt => absurd h (lt_asymm hlt)⟩

/-- C5 (amended): for two consecutive `genTempId` calls within the same
millisecond, PROVIDED the first call's emitted suffix is not the all-`63`
overflow case, the second key is strictly greater than the first in
lexicographic order (and therefore unequal); the increment-with-carry of
the previous base-64 suffix realises this. -/
theorem c5_same_millisecond_keys_increase (g : GenState) (now : Nat)
    (rand rand2 : List Nat) (hg : WfSuffix g.lastRandChars)
    (hr : WfSuffix rand)
    (hnotfull : (genTempId g now rand).2.lastRandChars
        ≠ List.replicate 12 63) :
    (genTempId g now rand).1
        < (genTempId (genTempId g now rand).2 now rand2).1
    ∧ (genTempId g now rand).1
        ≠ (genTempId (genTempId g now rand).2 now rand2).1 := by
  have hs1wf : WfSuffix (genTempId g now rand).2.lastRandChars :=
    genTempId_suffix_wf g now rand hg hr
  have hlt : (genTempId g now rand).1
      < (genTempId (genTempId g now rand).2 now rand2).1 := by
    rw [String.lt_iff_toList_lt]
    show List.Lex (· < ·) (genTempId g now rand).1.toList
      (genTempId (genTempId g now rand).2 now rand2).1.toList
    rw [genTempId_key_toList, genTempId_key_toList,
      genTempId_dup_suffix (genTempId g now rand).2 now rand2 rfl]
    rw [← List.cons_append, ← List.cons_append]
    exact lex_append_left
      (map_pushChar_lex (genTempId g now rand).2.lastRandChars hs1wf.2
        (by rw [hs1wf.1]; exact hnotfull))
  exact ⟨hlt, ne_of_lt hlt⟩

/-- C5 witness: a concrete same-millisecond pair with a non-overflowing
suffix. -/
theorem c5_same_millisecond_keys_increase_witness :
    (genTempId ⟨5, List.replicate 12 0⟩ 5 (List.replicate 12 7)).1
        < (genTempId (genTempId ⟨5, List.replicate 12 0⟩ 5
            (List.replicate 12 7)).2 5 (List.replicate 12 7)).1
    ∧ (genTempId ⟨5, List.replicate 12 0⟩ 5 (List.replicate 12 7)).1
        ≠ (genTempId (genTempId ⟨5, List.replicate 12 0⟩ 5
            (List.replicate 12 7)).2 5 (List.replicate 12 7)).1 :=
  c5_same_millisecond_keys_increase ⟨5, List.replicate 12 0⟩ 5
    (List.replicate 12 7) (List.replicate 12 7)
    (by decide) (by decide) (by decide)

/-- C10 (counterexample): the all-`63` suffix state is reachable (one
fresh-millisecond call whose twelve random draws are all `63`), and on the
next same-millisecond call the carry loop's increment is executed at index
`-1` — outside indices `0..11` of the suffix array. -/
theorem c10_counterexample :
    (genTempId ⟨6, List.replicate 12 0⟩ 7 (List.replicate 12 63)).2
        = ⟨7, List.replicate 12 63⟩
    ∧ carryWriteIndex
        (genTempId ⟨6, List.replicate 12 0⟩ 7
          (List.replicate 12 63)).2.lastRandChars = -1
    ∧ ¬ (0 ≤ carryWriteIndex
        (genTempId ⟨6, List.replicate 12 0⟩ 7
          (List.replicate 12 63)).2.lastRandChars) := by
  decide

/-- Every character of a key lies in the 64-symbol push alphabet. -/
def keyInAlphabet (s : String) : Prop := ∀ c ∈ s.toList, c ∈ pushChars

/-- C10 (amended): whenever the previous suffix is not all-`63`, the carry
write lands inside indices `0..11`; and every generated key is a 21-symbol
string over the push alphabet beginning with `'-'`. -/
theorem c10_carry_bounds_and_key_shape (l : List Nat) (g : GenState)
    (now : Nat) (rand : List Nat) (hl : WfSuffix l)
    (hne : l ≠ List.replicate 12 63) (hg : WfSuffix g.lastRandChars)
    (hr : WfSuffix rand) :
    (0 ≤ carryWriteIndex l ∧ carryWriteIndex l ≤ 11)
    ∧ (genTempId g now rand).1.toList.length = 21
    ∧ (genTempId g now rand).1.toList.head? = some '-'
    ∧ keyInAlphabet (genTempId g now rand).1 := by
  have hwf : WfSuffix (genTempId g now rand).2.lastRandChars :=
    genTempId_suffix_wf g now rand hg hr
  refine ⟨carryWriteIndex_bounds l hl.1 hne, ?_, ?_, ?_⟩
  · rw [genTempId_key_toList]
    simp [timeStampChars, hwf.1]
  · rw [genTempId_key_toList]
    rfl
  · intro c hc
    rw [genTempId_key_toList] at hc
    rcases List.mem_cons.mp hc with rfl | hc2
    · decide
    · rcases List.mem_append.mp hc2 with hc3 | hc3
      · simp only [timeStampChars, List.mem_map, List.mem_range] at hc3
        obtain ⟨i, _, rfl⟩ := hc3
        exact pushChar_mem (Nat.mod_lt _ (by norm_num))
      · obtain ⟨v, hv, rfl⟩ := List.mem_map.mp hc3
        exact pushChar_mem (hwf.2 v hv)

/-- C1 (counterexample): the ordinary echo of an own message in the second
driver.  A placeholder is pending under `K`, the cache is empty (the send
paths never insert placeholders into the cache), and the remote event
`id = K` arrives.  The merge branch removes the pending entry but — since
`findIndex` misses — adds nothing to the cache: afterwards the cache holds
ZERO entries for the message, not exactly one carrying the remote id. -/
theorem c1_counterexample :
    (UploadSvc.applyRoom "u1" (fun _ => none)
        { UploadSvc.St.init with pending := [("K",
            { id := "K", tempId := some "K", type := "uploading",
              status := some "uploading", sender := "Alice",
              senderId := some "u1", text := "", createdAt := 90,
              image := none, video := none, file := none,
              progress := some 0 })] }
        { id := "K", tempId := none, senderId := "u1",
          senderName := "Alice", text := "hi", createdAt := 100,
          image := none, video := none, file := none }).cache = []
    ∧ lookupA (UploadSvc.applyRoom "u1" (fun _ => none)
        { UploadSvc.St.init with pending := [("K",
            { id := "K", tempId := some "K", type := "uploading",
              status := some "uploading", sender := "Alice",
              senderId := some "u1", text := "", createdAt := 90,
              image := none, video := none, file := none,
              progress := some 0 })] }
        { id := "K", tempId := none, senderId := "u1",
          senderName := "Alice", text := "hi", createdAt := 100,
          image := none, video := none, file := none }).pending "K"
      = none := by
  decide

/-- C1 (amended): when a placeholder is pending under `K` and the remote
event's **id** equals `K` (through `firebaseService.listenForMessages` the
events carry no correlation-key field, so the id is the effective match
key) and no cache entry matches `K`: the merge spread marks the merged
record `delivered`; in the first driver the pending entry is removed and
the cache afterwards holds exactly one entry for the message, carrying the
remote id; in the second driver the pending entry is removed and the id
recorded as processed, but the cache is left unchanged (the reconciled
message is only written in place when the placeholder was already
cached). -/
theorem c1_merge_reconciles_placeholder (uid K : String) (ph : Msg)
    (profiles : String → Option UploadSvc.Profile)
    (s1 : AppJs.St) (s2 : UploadSvc.St) (raw : RawMsg)
    (hid : raw.id = K) (htid : raw.tempId = none)
    (h1p : lookupA s1.pending K = some ph)
    (h1c : ∀ m ∈ s1.cache, m.id ≠ K ∧ m.tempId ≠ some K)
    (h2p : lookupA s2.pending K = some ph)
    (h2c : ∀ m ∈ s2.cache, m.id ≠ K ∧ m.tempId ≠ some K)
    (h2pr : s2.processed.contains K = false) :
    (AppJs.mergeRecord ph (AppJs.formatMessage uid raw)).status
        = some "delivered"
    ∧ lookupA (AppJs.applyRoom uid s1 raw).pending K = none
    ∧ (AppJs.applyRoom uid s1 raw).cache.countP (fun m => m.id == K) = 1
    ∧ lookupA (UploadSvc.applyRoom uid profiles s2 raw).pending K = none
    ∧ (UploadSvc.applyRoom uid profiles s2 raw).processed.contains K = true
    ∧ (UploadSvc.applyRoom uid profiles s2 raw).cache = s2.cache := by
  subst hid
  have hidx1 : s1.cache.findIdx?
      (fun m => m.tempId == some raw.id || m.id == raw.id) = none := by
    refine List.findIdx?_eq_none_iff.mpr (fun m hm => ?_)
    have h := h1c m hm
    simp only [Bool.or_eq_false_iff, beq_eq_false_iff_ne, ne_eq]
    exact ⟨h.2, h.1⟩
  have hidx2 : s2.cache.findIdx?
      (fun m => m.tempId == some raw.id || m.id == raw.id) = none := by
    refine List.findIdx?_eq_none_iff.mpr (fun m hm => ?_)
    have h := h2c m hm
    simp only [Bool.or_eq_false_iff, beq_eq_false_iff_ne, ne_eq]
    exact ⟨h.2, h.1⟩
  refine ⟨rfl, applyRoom_appjs_pending_none uid s1 raw, ?_, ?_, ?_, ?_⟩
  · unfold AppJs.applyRoom
    simp only [formatMessage_tempId_appjs, Option.getD_none,
      formatMessage_id_appjs, h1p, hidx1]
    rw [List.countP_append,
      List.countP_eq_zero.mpr (fun m hm => by simpa using (h1c m hm).1)]
    simp [List.countP_cons, formatMessage_id_appjs]
  · unfold UploadSvc.applyRoom
    simp only [h2pr, Bool.false_eq_true, if_false, htid, Option.getD_none,
      h2p]
    exact lookupA_eraseA _ _
  · exact applyRoom_upsvc_processed uid profiles s2 raw
  · unfold UploadSvc.applyRoom
    simp only [h2pr, Bool.false_eq_true, if_false, htid, Option.getD_none,
      h2p, hidx2]

/-- C1 witness: the placeholder/echo pair at concrete values. -/
theorem c1_merge_reconciles_placeholder_witness :
    (AppJs.mergeRecord
        { id := "K", tempId := some "K", type := "uploading",
          status := some "uploading", sender := "Alice",
          senderId := some "u1", text := "", createdAt := 90,
          image := none, video := none, file := none, progress := some 0 }
        (AppJs.formatMessage "u1"
          { id := "K", tempId := none, senderId := "u1",
            senderName := "Alice", text := "hi", createdAt := 100,
            image := none, video := none, file := none })).status
        = some "delivered"
    ∧ lookupA (AppJs.applyRoom "u1"
        { AppJs.St.init with pending := [("K",
            { id := "K", tempId := some "K", type := "uploading",
              status := some "uploading", sender := "Alice",
              senderId := some "u1", text := "", createdAt := 90,
              image := none, video := none, file := none,
              progress := some 0 })] }
        { id := "K", tempId := none, senderId := "u1",
          senderName := "Alice", text := "hi", createdAt := 100,
          image := none, video := none, file := none }).pending "K" = none
    ∧ (AppJs.applyRoom "u1"
        { AppJs.St.init with pending := [("K",
            { id := "K", tempId := some "K", type := "uploading",
              status := some "uploading", sender := "Alice",
              senderId := some "u1", text := "", createdAt := 90,
              image := none, video := none, file := none,
              progress := some 0 })] }
        { id := "K", tempId := none, senderId := "u1",
          senderName := "Alice", text := "hi", createdAt := 100,
          image := none, video := none, file := none }).cache.countP
        (fun m => m.id == "K") = 1
    ∧ lookupA (UploadSvc.applyRoom "u1" (fun _ => none)
        { UploadSvc.St.init with pending := [("K",
            { id := "K", tempId := some "K", type := "uploading",
              status := some "uploading", sender := "Alice",
              senderId := some "u1", text := "", createdAt := 90,
              image := none, video := none, file := none,
              progress := some 0 })] }
        { id := "K", tempId := none, senderId := "u1",
          senderName := "Alice", text := "hi", createdAt := 100,
          image := none, video := none, file := none }).pending "K" = none
    ∧ (UploadSvc.applyRoom "u1" (fun _ => none)
        { UploadSvc.St.init with pending := [("K",
            { id := "K", tempId := some "K", type := "uploading",
              status := some "uploading", sender := "Alice",
              senderId := some "u1", text := "", createdAt := 90,
              image := none, video := none, file := none,
              progress := some 0 })] }
        { id := "K", tempId := none, senderId := "u1",
          senderName := "Alice", text := "hi", createdAt := 100,
          image := none, video := none, file := none }).processed.contains
        "K" = true
    ∧ (UploadSvc.applyRoom "u1" (fun _ => none)
        { UploadSvc.St.init with pending := [("K",
            { id := "K", tempId := some "K", type := "uploading",
              status := some "uploading", sender := "Alice",
              senderId := some "u1", text := "", createdAt := 90,
              image := none, video := none, file := none,
              progress := some 0 })] }
        { id := "K", tempId := none, senderId := "u1",
          senderName := "Alice", text := "hi", createdAt := 100,
          image := none, video := none, file := none }).cache
      = ({ UploadSvc.St.init with pending := [("K",
            { id := "K", tempId := some "K", type := "uploading",
              status := some "uploading", sender := "Alice",
              senderId := some "u1", text := "", createdAt := 90,
              image := none, video := none, file := none,
              progress := some 0 })] } : UploadSvc.St).cache :=
  c1_merge_reconciles_placeholder "u1" "K"
    { id := "K", tempId := some "K", type := "uploading",
      status := some "uploading", sender := "Alice",
      senderId := some "u1", text := "", createdAt := 90,
      image := none, video := none, file := none, progress := some 0 }
    (fun _ => none)
    { AppJs.St.init with pending := [("K",
        { id := "K", tempId := some "K", type := "uploading",
          status := some "uploading", sender := "Alice",
          senderId := some "u1", text := "", createdAt := 90,
          image := none, video := none, file := none,
          progress := some 0 })] }
    { UploadSvc.St.init with pending := [("K",
        { id := "K", tempId := some "K", type := "uploading",
          status := some "uploading", sender := "Alice",
          senderId := some "u1", text := "", createdAt := 90,
          image := none, video := none, file := none,
          progress := some 0 })] }
    { id := "K", tempId := none, senderId := "u1",
      senderName := "Alice", text := "hi", createdAt := 100,
      image := none, video := none, file := none }
    rfl rfl (by decide) (by decide) (by decide) (by decide) (by decide)

/-- Timestamp of `h` is a lower bound for every buffered item. -/
def UploadSvc.QItem.lbOf (h : UploadSvc.QItem)
    (t : List UploadSvc.QItem) : Prop :=
  ∀ x ∈ t, UploadSvc.qLE h x

/-- C6 (counterexample): deliver `T+30, T+10, T+20` through the Ordering
Queue (enqueue 30 first, then 10 and 20 while 30's enrichment is in
flight, then let the three enrichments settle).  `queueMessage`
synchronously shifts the first arrival into processing, so the applied
order is `[30, 10, 20]` — not the timestamp order `[10, 20, 30]` — even
though all enrichments complete in order. -/
theorem c6_counterexample :
    ((UploadSvc.qrun UploadSvc.QSt.init
        [UploadSvc.QEv.enqueue ⟨"a", 30⟩, UploadSvc.QEv.enqueue ⟨"b", 10⟩,
          UploadSvc.QEv.enqueue ⟨"c", 20⟩, UploadSvc.QEv.settle true,
          UploadSvc.QEv.settle true, UploadSvc.QEv.settle true]).applied.map
      (fun x => x.ts)) = [30, 10, 20]
    ∧ ¬ ((UploadSvc.qrun UploadSvc.QSt.init
        [UploadSvc.QEv.enqueue ⟨"a", 30⟩, UploadSvc.QEv.enqueue ⟨"b", 10⟩,
          UploadSvc.QEv.enqueue ⟨"c", 20⟩, UploadSvc.QEv.settle true,
          UploadSvc.QEv.settle true, UploadSvc.QEv.settle true]).applied.map
      (fun x => x.ts)) = [10, 20, 30] := by
  decide

/-- C6 (amended): the Ordering Queue is single-flight (an enqueue while
the latch is set starts no enrichment and applies nothing), the buffer
stays timestamp-sorted under every step (new arrivals insert at their
sorted position), the item taken after a settle is the earliest-timestamp
buffered item, and a FAILED enrichment also advances to the next item
without applying anything — but the final applied order equals the
timestamp order only for items still buffered when dequeued (see the
counterexample for a late-arriving older item). -/
theorem c6_queue_single_flight_sorted_no_stall (s : UploadSvc.QSt)
    (it h : UploadSvc.QItem) (t : List UploadSvc.QItem) (ok : Bool)
    (e : UploadSvc.QEv) :
    (s.isProcessingQueue = true →
      (UploadSvc.qstep s (UploadSvc.QEv.enqueue it)).inFlight = s.inFlight
      ∧ (UploadSvc.qstep s (UploadSvc.QEv.enqueue it)).applied = s.applied)
    ∧ (List.Sorted UploadSvc.qLE s.messageQueue →
        List.Sorted UploadSvc.qLE (UploadSvc.qstep s e).messageQueue)
    ∧ (s.messageQueue = h :: t →
        List.Sorted UploadSvc.qLE s.messageQueue →
        s.inFlight.isSome = true →
        (UploadSvc.qstep s (UploadSvc.QEv.settle ok)).inFlight = some h
        ∧ UploadSvc.QItem.lbOf h
            (UploadSvc.qstep s (UploadSvc.QEv.settle ok)).messageQueue)
    ∧ (s.messageQueue = h :: t → s.inFlight.isSome = true →
        (UploadSvc.qstep s (UploadSvc.QEv.settle false)).applied
          = s.applied) := by
  refine ⟨?_, ?_, ?_, ?_⟩
  · intro hp
    constructor <;> simp [UploadSvc.qstep, hp]
  · intro hsort
    cases e with
    | enqueue it2 =>
        have hq2 : List.Sorted UploadSvc.qLE
            (UploadSvc.sortQueue (s.messageQueue ++ [it2])) :=
          List.sorted_insertionSort _ _
        unfold UploadSvc.qstep
        by_cases hp : s.isProcessingQueue = true
        · simpa [hp] using hq2
        · cases hq : UploadSvc.sortQueue (s.messageQueue ++ [it2]) with
          | nil => simp [hp, hq]
          | cons hh tt =>
              have htt : List.Sorted UploadSvc.qLE tt := by
                rw [hq] at hq2
                exact hq2.of_cons
              simpa [hp, hq] using htt
    | settle ok2 =>
        unfold UploadSvc.qstep
        cases hf : s.inFlight with
        | none => simpa [hf] using hsort
        | some it0 =>
            cases hq : s.messageQueue with
            | nil => simp [hf, hq]
            | cons hh tt =>
                have htt : List.Sorted UploadSvc.qLE tt := by
                  rw [hq] at hsort
                  exact hsort.of_cons
                simpa [hf, hq] using htt
  · intro hq hsort hf
    obtain ⟨it0, hf0⟩ := Option.isSome_iff_exists.mp hf
    unfold UploadSvc.qstep
    simp only [hf0, hq]
    rw [hq] at hsort
    exact ⟨trivial, fun x hx => List.rel_of_sorted_cons hsort x hx⟩
  · intro hq hf
    obtain ⟨it0, hf0⟩ := Option.isSome_iff_exists.mp hf
    unfold UploadSvc.qstep
    simp only [hf0, hq]
    rfl

/-- C6 witness: a concrete in-flight state with one buffered item. -/
theorem c6_queue_single_flight_sorted_no_stall_witness :
    ((UploadSvc.qstep ⟨[⟨"c", 20⟩], true, some ⟨"a", 10⟩, []⟩
        (UploadSvc.QEv.enqueue ⟨"d", 5⟩)).inFlight
        = (⟨[⟨"c", 20⟩], true, some ⟨"a", 10⟩, []⟩ : UploadSvc.QSt).inFlight
      ∧ (UploadSvc.qstep ⟨[⟨"c", 20⟩], true, some ⟨"a", 10⟩, []⟩
        (UploadSvc.QEv.enqueue ⟨"d", 5⟩)).applied
        = (⟨[⟨"c", 20⟩], true, some ⟨"a", 10⟩, []⟩ : UploadSvc.QSt).applied)
    ∧ List.Sorted UploadSvc.qLE
        (UploadSvc.qstep ⟨[⟨"c", 20⟩], true, some ⟨"a", 10⟩, []⟩
          (UploadSvc.QEv.enqueue ⟨"d", 5⟩)).messageQueue
    ∧ ((UploadSvc.qstep ⟨[⟨"c", 20⟩], true, some ⟨"a", 10⟩, []⟩
          (UploadSvc.QEv.settle true)).inFlight = some ⟨"c", 20⟩
      ∧ UploadSvc.QItem.lbOf ⟨"c", 20⟩
          (UploadSvc.qstep ⟨[⟨"c", 20⟩], true, some ⟨"a", 10⟩, []⟩
            (UploadSvc.QEv.settle true)).messageQueue)
    ∧ (UploadSvc.qstep ⟨[⟨"c", 20⟩], true, some ⟨"a", 10⟩, []⟩
        (UploadSvc.QEv.settle false)).applied
        = (⟨[⟨"c", 20⟩], true, some ⟨"a", 10⟩, []⟩ : UploadSvc.QSt).applied :=
  ⟨(c6_queue_single_flight_sorted_no_stall
      ⟨[⟨"c", 20⟩], true, some ⟨"a", 10⟩, []⟩ ⟨"d", 5⟩ ⟨"c", 20⟩ [] true
      (UploadSvc.QEv.enqueue ⟨"d", 5⟩)).1 rfl,
    (c6_queue_single_flight_sorted_no_stall
      ⟨[⟨"c", 20⟩], true, some ⟨"a", 10⟩, []⟩ ⟨"d", 5⟩ ⟨"c", 20⟩ [] true
      (UploadSvc.QEv.enqueue ⟨"d", 5⟩)).2.1 (by simp),
    (c6_queue_single_flight_sorted_no_stall
      ⟨[⟨"c", 20⟩], true, some ⟨"a", 10⟩, []⟩ ⟨"d", 5⟩ ⟨"c", 20⟩ [] true
      (UploadSvc.QEv.enqueue ⟨"d", 5⟩)).2.2.1 rfl (by simp) rfl,
    (c6_queue_single_flight_sorted_no_stall
      ⟨[⟨"c", 20⟩], true, some ⟨"a", 10⟩, []⟩ ⟨"d", 5⟩ ⟨"c", 20⟩ [] true
      (UploadSvc.QEv.enqueue ⟨"d", 5⟩)).2.2.2 rfl rfl⟩

/-- C7 (counterexample): the first driver has no working latch: with
`isUploading = true` (the only latch field `src/app.js` declares — and
never sets) and an upload already in flight, a second
`uploadAndSendAttachment` call still proceeds: it returns a live upload
context and registers a SECOND pending placeholder instead of returning
immediately. -/
theorem c7_counterexample :
    (AppJs.uploadStart (AppJs.uploadStart
        { AppJs.St.init with
            pendingAttachment := some ⟨"a.png", "image/png", 100⟩,
            isUploading := true }
        1000 (List.replicate 12 0) "u1" "Me" "").1
        1000 (List.replicate 12 1) "u1" "Me" "").2.isSome = true
    ∧ (AppJs.uploadStart (AppJs.uploadStart
        { AppJs.St.init with
            pendingAttachment := some ⟨"a.png", "image/png", 100⟩,
            isUploading := true }
        1000 (List.replicate 12 0) "u1" "Me" "").1
        1000 (List.replicate 12 1) "u1" "Me" "").1.pending.length = 2
    ∧ (AppJs.uploadStart (AppJs.uploadStart
        { AppJs.St.init with
            pendingAttachment := some ⟨"a.png", "image/png", 100⟩,
            isUploading := true }
        1000 (List.replicate 12 0) "u1" "Me" "").1
        1000 (List.replicate 12 1) "u1" "Me" "").1.isUploading = true := by
  decide

/-- C7 (amended): in the second driver the latches do hold: with
`isSending` set, `sendMessageFromComposer` returns immediately with the
state untouched (so no placeholder, no remote write, nothing queued), and
with `isUploading` set, `uploadAndSendAttachment` returns immediately with
no upload context; the first driver's composer paths consult no latch (see
the counterexample). -/
theorem c7_second_driver_latch (s : UploadSvc.St) (input : String)
    (now : Nat) (rand : List Nat) (uid uname caption : String)
    (saveOk : Bool) (transfer : Except String String)
    (attachment : Option FileV) (hsend : s.isSending = true)
    (hup : s.isUploading = true) :
    UploadSvc.sendMessageFromComposer s input now rand uid uname saveOk
        transfer = s
    ∧ UploadSvc.uploadStart s attachment now rand uid uname caption
        = (s, none) := by
  constructor
  · unfold UploadSvc.sendMessageFromComposer
    rw [if_pos hsend]
  · unfold UploadSvc.uploadStart
    rw [if_pos hup]

/-- C7 witness: both latches set on a concrete session state. -/
theorem c7_second_driver_latch_witness :
    UploadSvc.sendMessageFromComposer
        { UploadSvc.St.init with isSending := true, isUploading := true }
        "hello" 1000 (List.replicate 12 0) "u1" "Me" true (Except.ok "u")
      = { UploadSvc.St.init with isSending := true, isUploading := true }
    ∧ UploadSvc.uploadStart
        { UploadSvc.St.init with isSending := true, isUploading := true }
        (some ⟨"a.png", "image/png", 100⟩) 1000 (List.replicate 12 0)
        "u1" "Me" "cap"
      = ({ UploadSvc.St.init with isSending := true, isUploading := true },
          none) :=
  c7_second_driver_latch
    { UploadSvc.St.init with isSending := true, isUploading := true }
    "hello" 1000 (List.replicate 12 0) "u1" "Me" "cap" true
    (Except.ok "u") (some ⟨"a.png", "image/png", 100⟩) rfl rfl

/-- C8 (counterexample): an 11 MB image (limit 10 MB) sent through the
second driver's attachment flow.  `validateFileSize` only runs inside
`uploadFile`, AFTER the placeholder has been created and registered: the
attempt ends with a `pendingMessages` entry present (and a retry context
recorded), not with a rejection before any state is created. -/
theorem c8_counterexample :
    (UploadSvc.uploadAtomic UploadSvc.St.init
        (some ⟨"big.png", "image/png", 11534336⟩) 1000
        (List.replicate 12 0) "u1" "Me" "cap" (Except.ok "u")).pending.length
      = 1
    ∧ (UploadSvc.uploadAtomic UploadSvc.St.init
        (some ⟨"big.png", "image/png", 11534336⟩) 1000
        (List.replicate 12 0) "u1" "Me" "cap"
        (Except.ok "u")).failedUploads.length = 1 := by
  decide

/-- C8 (amended): empty or whitespace-only input IS rejected before any
state is created, in both drivers; an oversized attachment, however, is
rejected by `validateFileSize` only inside `uploadFile`, after the
placeholder has been rendered and registered in the pending table — the
attempt then ends in the failed/retry bookkeeping, with no cache entry and
no remote write, but with the pending-table entry still present. -/
theorem c8_validation_paths (s1 : AppJs.St) (s2 : UploadSvc.St)
    (input : String) (now : Nat) (rand : List Nat)
    (uid uname caption : String) (saveOk : Bool)
    (transfer : Except String String) (f : FileV)
    (hin : jsTrim input = "") (hatt1 : s1.pendingAttachment = none)
    (hatt2 : s2.pendingAttachment = none)
    (hbig : validateFileSizeOk f = false)
    (hup : s2.isUploading = false) :
    AppJs.sendMessageFromComposer s1 input now rand uid uname saveOk
        transfer = s1
    ∧ UploadSvc.sendMessageFromComposer s2 input now rand uid uname saveOk
        transfer = s2
    ∧ (UploadSvc.uploadAtomic s2 (some f) now rand uid uname caption
        transfer).cache = s2.cache
    ∧ (UploadSvc.uploadAtomic s2 (some f) now rand uid uname caption
        transfer).savedLog = s2.savedLog
    ∧ lookupA (UploadSvc.uploadAtomic s2 (some f) now rand uid uname
        caption transfer).pending (genTempId s2.gen now rand).1
      = some { id := (genTempId s2.gen now rand).1,
               tempId := some (genTempId s2.gen now rand).1,
               type := "uploading", status := some "uploading",
               progress := some 0, sender := uname, senderId := some uid,
               text := caption, createdAt := now, image := none,
               video := none, file := none } := by
  refine ⟨?_, ?_, ?_, ?_, ?_⟩
  · unfold AppJs.sendMessageFromComposer
    simp [hatt1, hin]
  · unfold UploadSvc.sendMessageFromComposer
    by_cases hs : s2.isSending = true
    · rw [if_pos hs]
    · rw [if_neg hs]
      simp [hatt2, hin]
  · unfold UploadSvc.uploadAtomic UploadSvc.uploadStart
    rw [if_neg (by rw [hup]; exact Bool.false_ne_true)]
    simp [Option.orElse, uploadOutcome, hbig, UploadSvc.uploadFinish]
  · unfold UploadSvc.uploadAtomic UploadSvc.uploadStart
    rw [if_neg (by rw [hup]; exact Bool.false_ne_true)]
    simp [Option.orElse, uploadOutcome, hbig, UploadSvc.uploadFinish]
  · unfold UploadSvc.uploadAtomic UploadSvc.uploadStart
    rw [if_neg (by rw [hup]; exact Bool.false_ne_true)]
    simp [Option.orElse, uploadOutcome, hbig, UploadSvc.uploadFinish,
      lookupA_insertA]

/-- C8 witness: whitespace input and an oversized image at concrete
values. -/
theorem c8_validation_paths_witness :
    AppJs.sendMessageFromComposer AppJs.St.init "   " 1000
        (List.replicate 12 0) "u1" "Me" true (Except.ok "u")
      = AppJs.St.init
    ∧ UploadSvc.sendMessageFromComposer UploadSvc.St.init "   " 1000
        (List.replicate 12 0) "u1" "Me" true (Except.ok "u")
      = UploadSvc.St.init
    ∧ (UploadSvc.uploadAtomic UploadSvc.St.init
        (some ⟨"big.png", "image/png", 11534336⟩) 1000
        (List.replicate 12 0) "u1" "Me" "cap" (Except.ok "u")).cache
      = UploadSvc.St.init.cache
    ∧ (UploadSvc.uploadAtomic UploadSvc.St.init
        (some ⟨"big.png", "image/png", 11534336⟩) 1000
        (List.replicate 12 0) "u1" "Me" "cap" (Except.ok "u")).savedLog
      = UploadSvc.St.init.savedLog
    ∧ lookupA (UploadSvc.uploadAtomic UploadSvc.St.init
        (some ⟨"big.png", "image/png", 11534336⟩) 1000
        (List.replicate 12 0) "u1" "Me" "cap" (Except.ok "u")).pending
        (genTempId UploadSvc.St.init.gen 1000 (List.replicate 12 0)).1
      = some { id := (genTempId UploadSvc.St.init.gen 1000
                 (List.replicate 12 0)).1,
               tempId := some (genTempId UploadSvc.St.init.gen 1000
                 (List.replicate 12 0)).1,
               type := "uploading", status := some "uploading",
               progress := some 0, sender := "Me", senderId := some "u1",
               text := "cap", createdAt := 1000, image := none,
               video := none, file := none } :=
  c8_validation_paths AppJs.St.init UploadSvc.St.init "   " 1000
    (List.replicate 12 0) "u1" "Me" "cap" true (Except.ok "u")
    ⟨"big.png", "image/png", 11534336⟩ (by decide) rfl rfl (by decide) rfl

/-- C9 (failing run): Scenario E.  An upload starts (placeholder
registered, transfer in flight), the user calls `cancelFileUpload`, and
the already-in-flight transfer later resolves.  `cancelFileUpload` only
clears the attachment preview and the latch — contrary to the source's own
flow documentation (`uploadService.js:528`, "User cancels → Remove
placeholder, don't save to Firebase"), the `pendingMessages` entry is
still present afterwards and the resolved flow still persists the message
to the remote log. -/
theorem c9_cancel_does_not_cancel :
    (UploadSvc.uploadStart UploadSvc.St.init
        (some ⟨"a.png", "image/png", 100⟩) 1000 (List.replicate 12 0)
        "u1" "Me" "hi").2
      = some ⟨(genTempId GenState.init 1000 (List.replicate 12 0)).1,
          "hi", ⟨"a.png", "image/png", 100⟩, "u1", "Me"⟩
    ∧ ¬ (lookupA (UploadSvc.uploadFinish
        (UploadSvc.cancelFileUpload
          (UploadSvc.uploadStart UploadSvc.St.init
            (some ⟨"a.png", "image/png", 100⟩) 1000 (List.replicate 12 0)
            "u1" "Me" "hi").1)
        ⟨(genTempId GenState.init 1000 (List.replicate 12 0)).1, "hi",
          ⟨"a.png", "image/png", 100⟩, "u1", "Me"⟩ 1001
        (uploadOutcome ⟨"a.png", "image/png", 100⟩
          (Except.ok "https://m"))).pending
        (genTempId GenState.init 1000 (List.replicate 12 0)).1 = none)
    ∧ (UploadSvc.uploadFinish
        (UploadSvc.cancelFileUpload
          (UploadSvc.uploadStart UploadSvc.St.init
            (some ⟨"a.png", "image/png", 100⟩) 1000 (List.replicate 12 0)
            "u1" "Me" "hi").1)
        ⟨(genTempId GenState.init 1000 (List.replicate 12 0)).1, "hi",
          ⟨"a.png", "image/png", 100⟩, "u1", "Me"⟩ 1001
        (uploadOutcome ⟨"a.png", "image/png", 100⟩
          (Except.ok "https://m"))).savedLog.length = 1 := by
  decide

/-- C4 (failing run): a failed upload (network error) stores a retry
context under the original `tempId`; `retryUpload` then re-enters
`uploadAndSendAttachment`, which calls `genTempId` again
(`src/services/uploadService.js:2956-2958`), so the successfully retried
message is persisted under a FRESH id different from the original
correlation key, and the pending table ends with TWO placeholder entries
for the one logical message. -/
theorem c4_retry_mints_fresh_identity :
    ((UploadSvc.retryUpload
        (UploadSvc.uploadAtomic UploadSvc.St.init
          (some ⟨"a.png", "image/png", 100⟩) 1000 (List.replicate 12 0)
          "u1" "Me" "cap" (Except.error "network"))
        (genTempId GenState.init 1000 (List.replicate 12 0)).1 1000
        (List.replicate 12 0) (Except.ok "https://m")).savedLog.map
      (fun m => m.id))
      = [(genTempId ⟨1000, List.replicate 12 0⟩ 1000
          (List.replicate 12 0)).1]
    ∧ (genTempId ⟨1000, List.replicate 12 0⟩ 1000
        (List.replicate 12 0)).1
      ≠ (genTempId GenState.init 1000 (List.replicate 12 0)).1
    ∧ (UploadSvc.retryUpload
        (UploadSvc.uploadAtomic UploadSvc.St.init
          (some ⟨"a.png", "image/png", 100⟩) 1000 (List.replicate 12 0)
          "u1" "Me" "cap" (Except.error "network"))
        (genTempId GenState.init 1000 (List.replicate 12 0)).1 1000
        (List.replicate 12 0) (Except.ok "https://m")).pending.length
      = 2 := by
  decide

/-- C10 witness: concrete non-overflowing suffix and a concrete call. -/
theorem c10_carry_bounds_and_key_shape_witness :
    (0 ≤ carryWriteIndex (List.replicate 12 7)
        ∧ carryWriteIndex (List.replicate 12 7) ≤ 11)
    ∧ (genTempId ⟨0, List.replicate 12 0⟩ 99 (List.replicate 12 7)).1.toList.length = 21
    ∧ (genTempId ⟨0, List.replicate 12 0⟩ 99 (List.replicate 12 7)).1.toList.head? = some '-'
    ∧ keyInAlphabet (genTempId ⟨0, List.replicate 12 0⟩ 99 (List.replicate 12 7)).1 :=
  c10_carry_bounds_and_key_shape (List.replicate 12 7)
    ⟨0, List.replicate 12 0⟩ 99 (List.replicate 12 7)
    (by decide) (by decide) (by decide) (by decide)

end SINK

section SanityChecks

open SINK

example : (genTempId GenState.init 50 (List.replicate 12 0)).1.length = 21 := by
  decide

example :
    incRand (List.replicate 12 63) = List.replicate 12 0 := by decide

example : carryWriteIndex (List.replicate 12 63) = -1 := by decide

example : incRand [1, 2, 63, 63] = [1, 3, 0, 0] := by decide

end SanityChecks

